import Mathlib

/-!
Verification development for the SMC trading system.

This file gives a shallow embedding, in Lean 4, of the pure computational
core of the system:

* `core/strategy/progressive_smc.py` - the `ProgressiveSMC` engine
  (candle buffer, ATR, pivots, BOS/CHoCH structure machine, order-block
  creation and mitigation);
* `core/strategy/ob_manager.py` - the touch/penetration query;
* `core/data/candle_builder.py` - the tick-to-candle aggregator;
* `core/risk/position_manager.py` - positions and per-symbol capital;
* `core/execution/order_manager.py` - the order lifecycle tracker;
* `core/utils/state_persistence.py` - the snapshot load path.

Python floats are modelled as exact rationals, bar counters as naturals,
contract sizes as integers, timestamps as integers.  Dictionaries are
modelled as association lists (insertion order preserved, as in Python)
or as plain functions where only point lookups and updates occur.
Wall-clock time (datetime.now) is either omitted or passed explicitly as
an argument.  Logging is omitted throughout: it does not affect state.
-/

namespace SMCT

/-- A closed input candle as fed to `ProgressiveSMC.process_candle`
(the dict keys timestamp/open/high/low/close/volume; the validation of
`process_candle` that all keys are present is structural here). -/
structure Candle where
  timestamp : Int
  opn : ℚ
  high : ℚ
  low : ℚ
  close : ℚ
  volume : ℚ
deriving DecidableEq

/-- An entry of `ProgressiveSMC.candles_buffer`: the candle dict, which
additionally carries the key atr once `process_candle` has stored the
computed ATR into it (`candle['atr'] = atr`). -/
structure BufCandle where
  timestamp : Int
  opn : ℚ
  high : ℚ
  low : ℚ
  close : ℚ
  volume : ℚ
  atr : Option ℚ
deriving DecidableEq

/-- The freshly appended buffer entry for an input candle (no atr key yet). -/
def Candle.toBuf (c : Candle) : BufCandle :=
  { timestamp := c.timestamp, opn := c.opn, high := c.high, low := c.low,
    close := c.close, volume := c.volume, atr := none }

/-- Placeholder candle used as the default of positional lookups; every
lookup in the embedding is in range whenever the source index is, so the
placeholder is never the value actually read on those paths. -/
def dfltBuf : BufCandle :=
  { timestamp := 0, opn := 0, high := 0, low := 0, close := 0, volume := 0, atr := none }

/-- Source dataclass `Structure` of progressive_smc.py (market-structure
state; the engine refers to it as `ms`).  `bos` and `choch` are `Option`
because the source initializes them to None. -/
structure MS where
  zn : Nat := 0
  zz : ℚ := 0
  bos : Option ℚ := none
  choch : Option ℚ := none
  loc : Nat := 0
  temp : Nat := 0
  trend : Int := 0
  start : Nat := 0
  main : ℚ := 0
  xloc : Nat := 0
  upsweep : Bool := false
  dnsweep : Bool := false
  txt : String := ""
deriving DecidableEq

/-- Source dataclass `OrderBlock` of progressive_smc.py.  The field
source names `isbb`, `bbloc`, `invalidated`, `invalidation_bar` are kept. -/
structure OrderBlock where
  bull : Bool
  top : ℚ
  btm : ℚ
  avg : ℚ
  loc : Nat
  css : String
  vol : ℚ
  dir : Int
  move : Nat := 1
  blPOS : Nat := 1
  brPOS : Nat := 1
  xlocbl : Nat := 0
  xlocbr : Nat := 0
  isbb : Bool := false
  bbloc : Option Nat := none
  invalidated : Bool := false
  invalidation_bar : Option Nat := none
deriving DecidableEq

/-- `OrderBlock.get_type` of the source. -/
def OrderBlock.get_type (ob : OrderBlock) : String :=
  if ob.invalidated then "invalidated"
  else if ob.isbb then "breaker"
  else "fresh"

/-- Engine configuration (`ProgressiveSMC.config`, a literal dict in
`__init__`): pivot length. -/
def mslen : Nat := 5

/-- Engine configuration: the ATR length parameter (config key len). -/
def lenParam : ℚ := 5

/-- Engine configuration: mitigation rule (config key obmiti). -/
inductive MitiRule where
  | closeRule
  | wickRule
  | avgRule
deriving DecidableEq

/-- The engine is constructed with obmiti = Close. -/
def obmiti : MitiRule := .closeRule

/-- Engine configuration: OB construction mode (config key obmode). -/
inductive ObMode where
  | lengthMode
  | fullMode
deriving DecidableEq

/-- The engine is constructed with obmode = Length. -/
def obmode : ObMode := .lengthMode

/-- Engine configuration: config key buildsweep. -/
def buildsweep : Bool := true

/-- `ProgressiveSMC.max_buffer_size` (the source keeps the last 300 candles). -/
def maxBufferSize : Nat := 300

/-- The mutable state of one `ProgressiveSMC` engine. -/
structure EngineState where
  current_bar : Nat := 0
  ms : MS := {}
  bullish_obs : List OrderBlock := []
  bearish_obs : List OrderBlock := []
  candles_buffer : List BufCandle := []
  up : Option ℚ := none
  dn : Option ℚ := none
  pivot_highs : List (Nat × ℚ) := []
  pivot_lows : List (Nat × ℚ) := []
deriving DecidableEq

/-- A fresh engine (`ProgressiveSMC.__init__` state). -/
def engineInit : EngineState := {}

/-- One True Range term of `_calculate_atr`:
max(high - low, abs (high - prev close), abs (low - prev close)). -/
def trueRange (prev cur : BufCandle) : ℚ :=
  max (cur.high - cur.low) (max |cur.high - prev.close| |cur.low - prev.close|)

/-- The list of True Ranges of consecutive candles (the loop
`for i in range(1, len(recent_candles))` of `_calculate_atr`). -/
def trList : List BufCandle → List ℚ
  | a :: b :: rest => trueRange a b :: trList (b :: rest)
  | _ => []

/-- Source: `ProgressiveSMC._calculate_atr`.  Returns none when fewer than
200 candles are buffered; otherwise the mean True Range of the last 200
candles divided by (5 / len). -/
def calcATR (buffer : List BufCandle) : Option ℚ :=
  if buffer.length < 200 then none
  else
    let recent := buffer.drop (buffer.length - 200)
    let trs := trList recent
    let base := trs.sum / (trs.length : ℚ)
    some (base / (5 / lenParam))

/-- The scanning loop of `_find_structure_point` for the lowest low
(use_max = False).  `offs` enumerates the offsets `i`; `n` is the buffer
length; an offset is skipped when the source index `n - 1 - i` would be
negative (the `if candle_idx >= 0` guard).  Returns (offset, running min). -/
def findLowAux (buffer : List BufCandle) (n : Nat) :
    List Nat → Nat × ℚ → Nat × ℚ
  | [], best => best
  | i :: rest, best =>
      if i < n then
        let lowVal := (buffer.getD (n - 1 - i) dfltBuf).low
        if lowVal < best.2 then findLowAux buffer n rest (i, lowVal)
        else findLowAux buffer n rest best
      else findLowAux buffer n rest best

/-- The scanning loop of `_find_structure_point` for the highest high
(use_max = True). -/
def findHighAux (buffer : List BufCandle) (n : Nat) :
    List Nat → Nat × ℚ → Nat × ℚ
  | [], best => best
  | i :: rest, best =>
      if i < n then
        let highVal := (buffer.getD (n - 1 - i) dfltBuf).high
        if highVal > best.2 then findHighAux buffer n rest (i, highVal)
        else findHighAux buffer n rest best
      else findHighAux buffer n rest best

/-- Source: `ProgressiveSMC._find_structure_point`.  The sentinels
99999999.0 (min_val) and 0.0 (max_val) and the initial idx = 0 are the
literal initial values of the source. -/
def find_structure_point (s : EngineState) (use_max : Bool) (sweep : Bool) : Nat :=
  let locToUse := if sweep then s.ms.xloc else s.ms.loc
  let searchRange := max 1 (s.current_bar - locToUse)
  let n := s.candles_buffer.length
  if use_max then (findHighAux s.candles_buffer n (List.range searchRange) (0, 0)).1
  else (findLowAux s.candles_buffer n (List.range searchRange) (0, 99999999)).1

/-- Source: `ProgressiveSMC._create_order_block`.  Reads the buffer entry
at `max(0, len - idx - 1)` (`max 0` is the truncation of Nat subtraction
here), builds the OrderBlock and inserts it at the head of the matching
directional list.  The guard `actual_idx >= len` (reachable only for an
empty buffer) leaves the state unchanged, as does the except branch. -/
def create_order_block (s : EngineState) (is_bullish : Bool) : EngineState :=
  let n := s.candles_buffer.length
  if is_bullish then
    let idx := find_structure_point s false false
    let actualIdx := n - idx - 1
    if n ≤ actualIdx then s
    else
      let candle := s.candles_buffer.getD actualIdx dfltBuf
      let highVal := candle.high
      let lowVal := candle.low
      let atrVal := candle.atr.getD 0
      let top := match obmode with
        | .lengthMode => if lowVal + atrVal > highVal then highVal else lowVal + atrVal
        | .fullMode => highVal
      let btm := lowVal
      let ob : OrderBlock :=
        { bull := true, top := top, btm := btm, avg := (top + btm) / 2,
          loc := s.current_bar - idx, css := "bullish", vol := candle.volume,
          dir := if candle.close > candle.opn then 1 else -1,
          xlocbl := s.current_bar - idx, xlocbr := s.current_bar - idx }
      { s with bullish_obs := ob :: s.bullish_obs }
  else
    let idx := find_structure_point s true false
    let actualIdx := n - idx - 1
    if n ≤ actualIdx then s
    else
      let candle := s.candles_buffer.getD actualIdx dfltBuf
      let highVal := candle.high
      let lowVal := candle.low
      let atrVal := candle.atr.getD 0
      let btm := match obmode with
        | .lengthMode => if highVal - atrVal < lowVal then lowVal else highVal - atrVal
        | .fullMode => lowVal
      let top := highVal
      let ob : OrderBlock :=
        { bull := false, top := top, btm := btm, avg := (top + btm) / 2,
          loc := s.current_bar - idx, css := "bearish", vol := candle.volume,
          dir := if candle.close > candle.opn then 1 else -1,
          xlocbl := s.current_bar - idx, xlocbr := s.current_bar - idx }
      { s with bearish_obs := ob :: s.bearish_obs }

/-- The left and right scans of `_detect_pivots` for a pivot high: no left
high may reach the center high (`is_pivot_high` is cleared on
`buffer[i].high >= center_high`), no right high may exceed it. -/
def pivotHighAt (buffer : List BufCandle) (centerIdx n : Nat) (centerHigh : ℚ) : Prop :=
  (∀ i ∈ List.range' (centerIdx - mslen) mslen,
    ¬((buffer.getD i dfltBuf).high ≥ centerHigh)) ∧
  (∀ i ∈ List.range' (centerIdx + 1) (min (centerIdx + mslen + 1) n - (centerIdx + 1)),
    ¬((buffer.getD i dfltBuf).high > centerHigh))

instance (buffer : List BufCandle) (centerIdx n : Nat) (centerHigh : ℚ) :
    Decidable (pivotHighAt buffer centerIdx n centerHigh) := by
  unfold pivotHighAt; infer_instance

/-- The left and right scans of `_detect_pivots` for a pivot low (mirror). -/
def pivotLowAt (buffer : List BufCandle) (centerIdx n : Nat) (centerLow : ℚ) : Prop :=
  (∀ i ∈ List.range' (centerIdx - mslen) mslen,
    ¬((buffer.getD i dfltBuf).low ≤ centerLow)) ∧
  (∀ i ∈ List.range' (centerIdx + 1) (min (centerIdx + mslen + 1) n - (centerIdx + 1)),
    ¬((buffer.getD i dfltBuf).low < centerLow))

instance (buffer : List BufCandle) (centerIdx n : Nat) (centerLow : ℚ) :
    Decidable (pivotLowAt buffer centerIdx n centerLow) := by
  unfold pivotLowAt; infer_instance

/-- Source: `ProgressiveSMC._detect_pivots`.  Appends confirmed pivot
highs/lows to the tracking lists (the engine never reads them back). -/
def detect_pivots (s : EngineState) : EngineState :=
  let n := s.candles_buffer.length
  if n < mslen * 2 + 1 then s
  else
    let centerIdx := n - mslen - 1
    if centerIdx < mslen then s
    else
      let centerHigh := (s.candles_buffer.getD centerIdx dfltBuf).high
      let s1 :=
        if pivotHighAt s.candles_buffer centerIdx n centerHigh then
          { s with pivot_highs := s.pivot_highs ++ [(s.current_bar - mslen, centerHigh)] }
        else s
      let centerLow := (s1.candles_buffer.getD centerIdx dfltBuf).low
      if pivotLowAt s1.candles_buffer centerIdx n centerLow then
        { s1 with pivot_lows := s1.pivot_lows ++ [(s1.current_bar - mslen, centerLow)] }
      else s1

/-- STATE 0 branch of `_process_market_structure` (initialization). -/
def state0_step (s : EngineState) (candle : Candle) : EngineState :=
  { s with ms := { s.ms with
      start := 1, trend := 0, bos := some candle.high, choch := some candle.low,
      loc := s.current_bar, temp := s.current_bar, main := 0, xloc := s.current_bar } }

/-- STATE 1 branch of `_process_market_structure` (waiting for the first
break).  In state 1 both `bos` and `choch` are always set (state 0 assigned
them); the fallthrough for a missing level leaves the state unchanged and
is unreachable along engine runs. -/
def state1_step (s : EngineState) (candle : Candle) : EngineState :=
  match s.ms.choch, s.ms.bos with
  | some ch, some b =>
      if buildsweep ∧ candle.low ≤ ch ∧ candle.close ≥ ch then
        { s with ms := { s.ms with dnsweep := true, choch := some candle.low, xloc := s.current_bar } }
      else if buildsweep ∧ candle.high ≥ b ∧ candle.close ≤ b then
        { s with ms := { s.ms with upsweep := true, bos := some candle.high, xloc := s.current_bar } }
      else if candle.close ≤ ch then
        let t := { s with ms := { s.ms with txt := "choch" } }
        let t2 := create_order_block t true
        { t2 with ms := { t2.ms with
            trend := -1, choch := t2.ms.bos, bos := none, start := 2,
            loc := t2.current_bar, main := candle.low, temp := t2.current_bar,
            xloc := t2.current_bar } }
      else if candle.close ≥ b then
        let t := { s with ms := { s.ms with txt := "choch" } }
        let t2 := create_order_block t false
        { t2 with ms := { t2.ms with
            trend := 1, bos := none, start := 2,
            loc := t2.current_bar, main := candle.high, temp := t2.current_bar,
            xloc := t2.current_bar } }
      else s
  | _, _ => s

/-- The CHoCH section of the bearish-trend branch of state 2 (runs when no
BOS sweep returned earlier on this candle). -/
def state2_bear_choch (s : EngineState) (candle : Candle) : EngineState :=
  match s.ms.choch with
  | some ch =>
      if buildsweep ∧ candle.high ≥ ch ∧ candle.close ≤ ch then
        { s with ms := { s.ms with upsweep := true, choch := some candle.high, xloc := s.current_bar } }
      else if candle.close ≥ ch then
        let t := { s with ms := { s.ms with txt := "choch", zz := ch, zn := s.current_bar } }
        let t2 := create_order_block t true
        let newChoch := match t2.ms.bos with
          | none => t2.ms.choch
          | some b2 => some b2
        { t2 with ms := { t2.ms with
            choch := newChoch, bos := none, main := candle.high, trend := 1,
            loc := t2.current_bar, xloc := t2.current_bar, temp := t2.current_bar } }
      else s
  | none => s

/-- The bearish-trend branch of state 2 of `_process_market_structure`. -/
def state2_bear (s : EngineState) (candle : Candle) (crossup : Bool) : EngineState :=
  let s1 :=
    if candle.low ≤ s.ms.main then
      { s with ms := { s.ms with main := candle.low, temp := s.current_bar } }
    else s
  let s2 :=
    match s1.ms.bos with
    | none =>
        if crossup ∧ candle.close > candle.opn ∧ s1.current_bar > 0 then
          match s1.candles_buffer.get? (s1.candles_buffer.length - 2) with
          | some prev =>
              if prev.close > prev.opn then
                { s1 with ms := { s1.ms with bos := some s1.ms.main, loc := s1.ms.temp, xloc := s1.ms.temp } }
              else s1
          | none => s1
        else s1
    | some _ => s1
  match s2.ms.bos with
  | some b =>
      if buildsweep ∧ candle.low ≤ b ∧ candle.close ≥ b then
        { s2 with ms := { s2.ms with dnsweep := true, bos := some candle.low, xloc := s2.current_bar } }
      else
        let s3 :=
          if candle.close ≤ b then
            let t := { s2 with ms := { s2.ms with txt := "bos", zz := b, zn := s2.current_bar } }
            let t2 := create_order_block t false
            { t2 with ms := { t2.ms with xloc := t2.current_bar, bos := none } }
          else s2
        state2_bear_choch s3 candle
  | none => state2_bear_choch s2 candle

/-- The CHoCH section of the bullish-trend branch of state 2. -/
def state2_bull_choch (s : EngineState) (candle : Candle) : EngineState :=
  match s.ms.choch with
  | some ch =>
      if buildsweep ∧ candle.low ≤ ch ∧ candle.close ≥ ch then
        { s with ms := { s.ms with dnsweep := true, choch := some candle.low, xloc := s.current_bar } }
      else if candle.close ≤ ch then
        let t := { s with ms := { s.ms with txt := "choch", zz := ch, zn := s.current_bar } }
        let t2 := create_order_block t false
        let newChoch := match t2.ms.bos with
          | none => t2.ms.choch
          | some b2 => some b2
        { t2 with ms := { t2.ms with
            choch := newChoch, bos := none, main := candle.low, trend := -1,
            loc := t2.current_bar, temp := t2.current_bar, xloc := t2.current_bar } }
      else s
  | none => s

/-- The bullish-trend branch of state 2 of `_process_market_structure`. -/
def state2_bull (s : EngineState) (candle : Candle) (crossdn : Bool) : EngineState :=
  let s1 :=
    if candle.high ≥ s.ms.main then
      { s with ms := { s.ms with main := candle.high, temp := s.current_bar } }
    else s
  let s2 :=
    match s1.ms.bos with
    | none =>
        if crossdn ∧ candle.close < candle.opn ∧ s1.current_bar > 0 then
          match s1.candles_buffer.get? (s1.candles_buffer.length - 2) with
          | some prev =>
              if prev.close < prev.opn then
                { s1 with ms := { s1.ms with bos := some s1.ms.main, loc := s1.ms.temp, xloc := s1.ms.temp } }
              else s1
          | none => s1
        else s1
    | some _ => s1
  match s2.ms.bos with
  | some b =>
      if buildsweep ∧ candle.high ≥ b ∧ candle.close ≤ b then
        { s2 with ms := { s2.ms with upsweep := true, bos := some candle.high, xloc := s2.current_bar } }
      else
        let s3 :=
          if candle.close ≥ b then
            let t := { s2 with ms := { s2.ms with txt := "bos", zz := b, zn := s2.current_bar } }
            let t2 := create_order_block t true
            { t2 with ms := { t2.ms with xloc := t2.current_bar, bos := none } }
          else s2
        state2_bull_choch s3 candle
  | none => state2_bull_choch s2 candle

/-- Source: `ProgressiveSMC._process_market_structure`.  Updates the up/dn
crossover trackers, resets the sweep flags, and dispatches on the state. -/
def process_market_structure (s : EngineState) (candle : Candle) : EngineState :=
  let up0 := s.up.getD candle.high
  let dn0 := s.dn.getD candle.low
  let crossup : Bool := decide (candle.high > up0)
  let up1 := if candle.high > up0 then candle.high else up0
  let dn1 := if candle.high > up0 then candle.low else dn0
  let crossdn : Bool := decide (candle.low < dn1)
  let up2 := if candle.low < dn1 then candle.high else up1
  let dn2 := if candle.low < dn1 then candle.low else dn1
  let s0 := { s with up := some up2, dn := some dn2,
                     ms := { s.ms with upsweep := false, dnsweep := false } }
  if s0.ms.start = 0 then state0_step s0 candle
  else if s0.ms.start = 1 then state1_step s0 candle
  else if s0.ms.start = 2 then
    if s0.ms.trend = -1 then state2_bear s0 candle crossup
    else if s0.ms.trend = 1 then state2_bull s0 candle crossdn
    else s0
  else s0

/-- The per-OB body of the bullish loop of `_check_mitigation`: a fresh OB
may become a breaker, a breaker may be invalidated; an already invalidated
OB is skipped (continue). -/
def mitigate_bullish (bar : Nat) (candle : Candle) (ob : OrderBlock) : OrderBlock :=
  if ob.invalidated then ob
  else if !ob.isbb then
    if (obmiti = .closeRule ∧ min candle.close candle.opn < ob.btm) ∨
       (obmiti = .wickRule ∧ candle.low < ob.btm) ∨
       (obmiti = .avgRule ∧ candle.low < ob.avg) then
      { ob with isbb := true, bbloc := some bar }
    else ob
  else
    if (obmiti = .closeRule ∧ max candle.close candle.opn > ob.top) ∨
       (obmiti = .wickRule ∧ candle.high > ob.top) ∨
       (obmiti = .avgRule ∧ candle.high > ob.avg) then
      { ob with invalidated := true, invalidation_bar := some bar }
    else ob

/-- The per-OB body of the bearish loop of `_check_mitigation` (mirror). -/
def mitigate_bearish (bar : Nat) (candle : Candle) (ob : OrderBlock) : OrderBlock :=
  if ob.invalidated then ob
  else if !ob.isbb then
    if (obmiti = .closeRule ∧ max candle.close candle.opn > ob.top) ∨
       (obmiti = .wickRule ∧ candle.high > ob.top) ∨
       (obmiti = .avgRule ∧ candle.high > ob.avg) then
      { ob with isbb := true, bbloc := some bar }
    else ob
  else
    if (obmiti = .closeRule ∧ min candle.close candle.opn < ob.btm) ∨
       (obmiti = .wickRule ∧ candle.low < ob.btm) ∨
       (obmiti = .avgRule ∧ candle.low < ob.avg) then
      { ob with invalidated := true, invalidation_bar := some bar }
    else ob

/-- Source: `ProgressiveSMC._check_mitigation`.  Each non-invalidated OB is
stepped by the mitigation rule; OBs invalidated on this candle are popped
from their list; OBs that were already invalidated are skipped (and hence
kept untouched, as the source records only newly invalidated indices). -/
def check_mitigation (s : EngineState) (candle : Candle) : EngineState :=
  let bulls := s.bullish_obs.filterMap fun ob =>
    if ob.invalidated then some ob
    else
      let ob2 := mitigate_bullish s.current_bar candle ob
      if ob2.invalidated then none else some ob2
  let bears := s.bearish_obs.filterMap fun ob =>
    if ob.invalidated then some ob
    else
      let ob2 := mitigate_bearish s.current_bar candle ob
      if ob2.invalidated then none else some ob2
  { s with bullish_obs := bulls, bearish_obs := bears }

/-- Source: `ProgressiveSMC.process_candle` (the main entry point).
Appends the candle to the buffer, trims the buffer to `max_buffer_size`,
returns early while fewer than 200 candles are buffered or if the ATR is
unavailable, stores the ATR into the buffered candle dict, then runs pivot
detection, the structure machine and the mitigation pass, and finally
increments the bar counter. -/
def process_candle (s : EngineState) (candle : Candle) : EngineState :=
  let buf1 := s.candles_buffer ++ [candle.toBuf]
  let buf2 := if buf1.length > maxBufferSize then buf1.drop 1 else buf1
  if buf2.length < 200 then
    { s with candles_buffer := buf2, current_bar := s.current_bar + 1 }
  else
    match calcATR buf2 with
    | none => { s with candles_buffer := buf2, current_bar := s.current_bar + 1 }
    | some atr =>
        let buf3 := buf2.dropLast ++ [{ candle.toBuf with atr := some atr }]
        let s1 := { s with candles_buffer := buf3 }
        let s2 := detect_pivots s1
        let s3 := process_market_structure s2 candle
        let s4 := check_mitigation s3 candle
        { s4 with current_bar := s4.current_bar + 1 }

/-- Feeding a whole candle list to a fresh engine, one candle at a time. -/
def runEngine (candles : List Candle) : EngineState :=
  candles.foldl process_candle engineInit

/-! Auxiliary concrete objects used in the run-level theorems. -/

def flatC (p : ℚ) : Candle :=
  { timestamp := 0, opn := p, high := p, low := p, close := p, volume := 0 }

def fbP (p : ℚ) : BufCandle := (flatC p).toBuf

def fbP0 (p : ℚ) : BufCandle := { fbP p with atr := some 0 }

def doji99 : Candle := { timestamp := 0, opn := 99, high := 99, low := 99, close := 99, volume := 0 }

def doji99atr : BufCandle := { doji99.toBuf with atr := some (1/199) }

def msC3 : MS :=
  { start := 1, trend := 0, bos := some 100, choch := some 100,
    loc := 199, temp := 199, main := 0, xloc := 199 }

def obC3 : OrderBlock :=
  { bull := true, top := 99, btm := 99, avg := (99 + 99) / 2, loc := 200, css := "bullish",
    vol := 0, dir := -1, xlocbl := 200, xlocbr := 200 }

def msC3out : MS :=
  { msC3 with trend := -1, choch := some 100, bos := none, start := 2
              loc := 200, main := 99, temp := 200, xloc := 200, txt := "choch" }

def c3Candles : List Candle := List.replicate 200 (flatC 100) ++ [doji99]

/-- Modelled from the spec (order-block coordinate calculation), not from
the source: the backward scan from the current bar for the bar with the
lowest low, keeping the first (most recent) bar attaining the extremum,
with no numeric sentinel.  `none` only when no offset is in range. -/
def specLowScan (buffer : List BufCandle) (n : Nat) :
    List Nat → Option (Nat × ℚ) → Option (Nat × ℚ)
  | [], best => best
  | i :: rest, best =>
      if i < n then
        let v := (buffer.getD (n - 1 - i) dfltBuf).low
        match best with
        | none => specLowScan buffer n rest (some (i, v))
        | some b =>
            if v < b.2 then specLowScan buffer n rest (some (i, v))
            else specLowScan buffer n rest (some b)
      else specLowScan buffer n rest best

/-- Modelled from the spec: the mirror scan for the highest high. -/
def specHighScan (buffer : List BufCandle) (n : Nat) :
    List Nat → Option (Nat × ℚ) → Option (Nat × ℚ)
  | [], best => best
  | i :: rest, best =>
      if i < n then
        let v := (buffer.getD (n - 1 - i) dfltBuf).high
        match best with
        | none => specHighScan buffer n rest (some (i, v))
        | some b =>
            if v > b.2 then specHighScan buffer n rest (some (i, v))
            else specHighScan buffer n rest (some b)
      else specHighScan buffer n rest best

/-- Modelled from the spec: the structure-point offset `i`, including the
spec's length adjustment ("if the bar at `k+1` has a more extreme value in
the same search direction than the bar at `k`, the coordinates are taken
from `k+1` instead and `i` is decremented by one"; bar `k+1` is offset
`i - 1`, and for `i = 0` that bar does not exist yet).  The window bounds
follow the engine's `search_range` (the spec fixes only its endpoints). -/
def spec_structure_offset (s : EngineState) (use_max : Bool) : Nat :=
  let searchRange := max 1 (s.current_bar - s.ms.loc)
  let n := s.candles_buffer.length
  let scan := if use_max then specHighScan s.candles_buffer n (List.range searchRange) none
    else specLowScan s.candles_buffer n (List.range searchRange) none
  match scan with
  | none => 0
  | some (i, v) =>
      if 0 < i then
        let w := if use_max then (s.candles_buffer.getD (n - 1 - (i - 1)) dfltBuf).high
          else (s.candles_buffer.getD (n - 1 - (i - 1)) dfltBuf).low
        if (if use_max then w > v else w < v) then i - 1 else i
      else i

/-- Modelled from the spec: the OB built from the chosen bar — bullish
`btm = low`, `top = min (high, low + atr)`; bearish `top = high`,
`btm = max (low, high - atr)` — inserted at the head of its directional
list.  An empty buffer offers no bar to choose, leaving the state as is. -/
def spec_create_order_block (s : EngineState) (is_bullish : Bool) : EngineState :=
  let n := s.candles_buffer.length
  if n = 0 then s
  else if is_bullish then
    let idx := spec_structure_offset s false
    let candle := s.candles_buffer.getD (n - 1 - idx) dfltBuf
    let atrVal := candle.atr.getD 0
    let btm := candle.low
    let top := min candle.high (candle.low + atrVal)
    let ob : OrderBlock :=
      { bull := true, top := top, btm := btm, avg := (top + btm) / 2,
        loc := s.current_bar - idx, css := "bullish", vol := candle.volume,
        dir := if candle.close > candle.opn then 1 else -1,
        xlocbl := s.current_bar - idx, xlocbr := s.current_bar - idx }
    { s with bullish_obs := ob :: s.bullish_obs }
  else
    let idx := spec_structure_offset s true
    let candle := s.candles_buffer.getD (n - 1 - idx) dfltBuf
    let atrVal := candle.atr.getD 0
    let top := candle.high
    let btm := max candle.low (candle.high - atrVal)
    let ob : OrderBlock :=
      { bull := false, top := top, btm := btm, avg := (top + btm) / 2,
        loc := s.current_bar - idx, css := "bearish", vol := candle.volume,
        dir := if candle.close > candle.opn then 1 else -1,
        xlocbl := s.current_bar - idx, xlocbr := s.current_bar - idx }
    { s with bearish_obs := ob :: s.bearish_obs }

def W1 : EngineState := { engineInit with candles_buffer := [fbP 100], current_bar := 1 }

def c201 : Candle :=
  { timestamp := 0, opn := 100000004, high := 100000004, low := 100000002, close := 100000002, volume := 0 }

def c202 : Candle :=
  { timestamp := 0, opn := 100000002, high := 100000002, low := 100000001, close := 100000001, volume := 0 }

def c203 : Candle :=
  { timestamp := 0, opn := 100000004, high := 100000005, low := 100000003, close := 100000005, volume := 0 }

def c201a : BufCandle := { c201.toBuf with atr := some (4/199) }

def c202a : BufCandle := { c202.toBuf with atr := some (5/199) }

def c203a : BufCandle := { c203.toBuf with atr := some (9/199) }

def c1Candles : List Candle := List.replicate 200 (flatC 100000000) ++ [c201, c202, c203]

def obC1bear : OrderBlock :=
  { bull := false, top := 100000004, btm := 100000004 - 4/199,
    avg := (100000004 + (100000004 - 4/199)) / 2, loc := 200, css := "bearish", vol := 0,
    dir := -1, xlocbl := 200, xlocbr := 200 }

def obC1bearBB : OrderBlock := { obC1bear with isbb := true, bbloc := some 202 }

def obC1bull : OrderBlock :=
  { bull := true, top := 100000003 + 9/199, btm := 100000003,
    avg := ((100000003 + 9/199) + 100000003) / 2, loc := 202, css := "bullish", vol := 0,
    dir := 1, xlocbl := 202, xlocbr := 202 }

def msC1w : MS :=
  { start := 1, trend := 0, bos := some 100000000, choch := some 100000000,
    loc := 199, temp := 199, main := 0, xloc := 199 }

def msC1a : MS :=
  { start := 2, trend := 1, bos := none, choch := some 100000000,
    loc := 200, temp := 200, main := 100000004, xloc := 200, txt := "choch" }

def msC1b : MS := { msC1a with bos := some 100000004 }

def msC1c : MS :=
  { zn := 202, zz := 100000004, start := 2, trend := 1, bos := none,
    choch := some 100000000, loc := 200, temp := 202, main := 100000005,
    xloc := 202, txt := "bos" }

def T202 : EngineState :=
  { current_bar := 202
    ms := { zn := 202, zz := 100000004, bos := some 100000004, choch := some 100000000
            loc := 200, temp := 202, trend := 1, start := 2, main := 100000005
            xloc := 200, txt := "bos" }
    bullish_obs := [], bearish_obs := [obC1bear]
    candles_buffer := (((List.replicate 199 (fbP 100000000) ++ [fbP0 100000000])
      ++ [c201a]) ++ [c202a]) ++ [c203a]
    up := some 100000005, dn := some 100000003 }

def statusRank (ob : OrderBlock) : Nat :=
  if ob.invalidated then 2 else if ob.isbb then 1 else 0

/-- An incoming tick as `CandleBuilder.process_tick` receives it: any of the
three fields may be missing from the dict (`tick.get(...)` returns None). -/
structure Tick where
  symbol : Option String
  price : Option ℚ
  timestamp : Option Int
deriving DecidableEq

/-- The candle dict built by `CandleBuilder._create_new_candle`, with the
internal tracking fields. -/
structure CurCandle where
  timestamp : Int
  opn : ℚ
  high : ℚ
  low : ℚ
  close : ℚ
  volume : ℚ
  tick_count : Nat
  candle_start : Int
  candle_end : Int
deriving DecidableEq

/-- The finalized candle emitted by `CandleBuilder._finalize_candle`
(tracking fields stripped). -/
structure FinCandle where
  timestamp : Int
  opn : ℚ
  high : ℚ
  low : ℚ
  close : ℚ
  volume : ℚ
deriving DecidableEq

/-- `CandleBuilder` state projected to one symbol (the source keeps one
current candle and one completed list per symbol in dicts; ticks for other
symbols do not touch this symbol's entries). -/
structure CBState where
  current : Option CurCandle := none
  completed : List FinCandle := []
  ticks_processed : Nat := 0
  candles_completed : Nat := 0
deriving DecidableEq

/-- A fresh `CandleBuilder` (per-symbol view). -/
def cbInit : CBState := {}

/-- Source: `CandleBuilder._get_candle_start_time`:
`(timestamp // timeframe_seconds) * timeframe_seconds` with Python floor
division. -/
def candle_start_time (T t : Int) : Int := (Int.fdiv t T) * T

/-- Source: `CandleBuilder._create_new_candle`. -/
def create_new_candle (T t : Int) (p : ℚ) : CurCandle :=
  { timestamp := candle_start_time T t
    opn := p, high := p, low := p, close := p, volume := 0, tick_count := 0
    candle_start := candle_start_time T t
    candle_end := candle_start_time T t + T }

/-- Source: `CandleBuilder._update_candle`. -/
def update_candle (c : CurCandle) (p : ℚ) : CurCandle :=
  { c with high := max c.high p
           low := min c.low p
           close := p
           tick_count := c.tick_count + 1 }

/-- Source: `CandleBuilder._finalize_candle` (validation only logs). -/
def finalize_candle (c : CurCandle) : FinCandle :=
  { timestamp := c.timestamp, opn := c.opn, high := c.high, low := c.low
    close := c.close, volume := c.volume }

/-- Source: `CandleBuilder._is_new_candle`. -/
def is_new_candle (T : Int) (cur : Option CurCandle) (t : Int) : Bool :=
  match cur with
  | none => true
  | some c => decide (candle_start_time T t ≠ c.candle_start)

/-- Python truthiness of the symbol field: `None` and `""` are falsy. -/
def truthyStr : Option String → Bool
  | none => false
  | some s => decide (s ≠ "")

/-- Python truthiness of the timestamp field: `None` and `0` are falsy. -/
def truthyInt : Option Int → Bool
  | none => false
  | some t => decide (t ≠ 0)

/-- Source: `CandleBuilder.process_tick` for one symbol.  The guard is the
source's `if not all([symbol, price is not None, timestamp]): return`
(Python truthiness; note `price` is only checked against None while
`timestamp` must be truthy, i.e. nonzero).  On a new bucket the open candle
is closed (`_close_candle`: finalize, append to the completed list, bump
the counter) and a fresh candle is created; `_update_candle` then runs
unconditionally on the current candle; `ticks_processed` is bumped.  The
string/datetime timestamp conversions do not apply to integer timestamps.
The body is wrapped in `try/except`, so no tick ever raises out of it; the
embedding is a total function. -/
def cb_process_tick (T : Int) (s : CBState) (tick : Tick) : CBState :=
  if truthyStr tick.symbol ∧ tick.price ≠ none ∧ truthyInt tick.timestamp then
    match tick.price, tick.timestamp with
    | some p, some t =>
        let s1 :=
          if is_new_candle T s.current t then
            let s0 := match s.current with
              | some c =>
                  { s with completed := s.completed ++ [finalize_candle c]
                           candles_completed := s.candles_completed + 1 }
              | none => s
            { s0 with current := some (create_new_candle T t p) }
          else s
        let s2 := match s1.current with
          | some c => { s1 with current := some (update_candle c p) }
          | none => s1
        { s2 with ticks_processed := s2.ticks_processed + 1 }
    | _, _ => s
  else s

/-- The touch-report dict returned by `OBManager.check_ob_touch`. -/
structure TouchResult where
  direction : String
  ob : OrderBlock
  entry_level : ℚ
  price_in_zone : ℚ
deriving DecidableEq

/-- Source: `ProgressiveSMC.get_active_obs` (bullish list): the
non-invalidated OBs, in list order. -/
def get_active_obs_bull (s : EngineState) : List OrderBlock :=
  s.bullish_obs.filter fun ob => !ob.invalidated

/-- Source: `ProgressiveSMC.get_active_obs` (bearish list). -/
def get_active_obs_bear (s : EngineState) : List OrderBlock :=
  s.bearish_obs.filter fun ob => !ob.invalidated

/-- Source: `OBManager.check_ob_touch`.  Scans the active bullish OBs in
order and returns on the first with `price <= top - (top - btm) * pct`;
then the active bearish OBs, returning on the first with
`price >= btm + (top - btm) * pct`; otherwise None.  The loops-with-return
are modelled with `List.find?`. -/
def check_ob_touch (s : EngineState) (price pct : ℚ) : Option TouchResult :=
  match (get_active_obs_bull s).find?
      (fun ob => decide (price ≤ ob.top - (ob.top - ob.btm) * pct)) with
  | some ob =>
      some { direction := "bullish", ob := ob
             entry_level := ob.top - (ob.top - ob.btm) * pct, price_in_zone := price }
  | none =>
      match (get_active_obs_bear s).find?
          (fun ob => decide (ob.btm + (ob.top - ob.btm) * pct ≤ price)) with
      | some ob =>
          some { direction := "bearish", ob := ob
                 entry_level := ob.btm + (ob.top - ob.btm) * pct, price_in_zone := price }
      | none => none

/-- The `Position` dataclass, restricted to the fields the tracked
behavior reads or writes (`entry_time`, leverage and the OB/bar metadata
are carried verbatim by the source and never influence capital or sizing).
The source's `partial_exited` / `partial_exit_price` fields are named
`partExited` / `partExit_price` here. -/
structure Position where
  direction : String
  entry_price : ℚ
  size : Int
  capital_used : ℚ
  partExited : Bool := false
  partExit_price : Option ℚ := none
  remaining_size : Option Int := none
deriving DecidableEq

/-- One entry of `PositionManager.closed_positions` (the fields the
capital invariant reads). -/
structure ClosedRec where
  exit_price : ℚ
  pnl : ℚ
  fees : ℚ
deriving DecidableEq

/-- `PositionManager` state: per-symbol capital dict (a function over the
tracked symbols), open positions dict (association list keyed by symbol),
and the closed-position history.  `peak_capital` and the stats counters do
not feed back into behavior and are omitted. -/
structure PMState where
  symbols : List String
  capital : String → ℚ
  positions : List (String × Position) := []
  closed_positions : List ClosedRec := []

/-- `PositionManager.__init__`: every tracked symbol starts with the same
initial capital. -/
def pmInit (syms : List String) (cap0 : ℚ) : PMState :=
  { symbols := syms, capital := fun _ => cap0 }

/-- Dict lookup `self.positions.get(symbol)`. -/
def plookup (l : List (String × Position)) (sym : String) : Option Position :=
  (l.find? fun e => decide (e.1 = sym)).map fun e => e.2

/-- Dict item assignment for an existing key. -/
def upd_positions (l : List (String × Position)) (sym : String) (p2 : Position) :
    List (String × Position) :=
  l.map fun e => if e.1 = sym then (sym, p2) else e

/-- Source: `PositionManager.get_total_capital` — `sum(self.capital.values())`;
the capital dict's keys are exactly the tracked symbols. -/
def get_total_capital (s : PMState) : ℚ := (s.symbols.map s.capital).sum

/-- Source: `PositionManager.can_enter_position`: symbol must be tracked,
not already hold a position, and have enough capital when a positive
requirement is given. -/
def can_enter_position (s : PMState) (sym : String) (required : ℚ) : Bool :=
  if ¬ (sym ∈ s.symbols) then false
  else if (plookup s.positions sym).isSome then false
  else if required > 0 ∧ s.capital sym < required then false
  else true

/-- Source: `PositionManager.open_position`.  The source raises ValueError
when `can_enter_position` fails, before any mutation; the embedding leaves
the state unchanged in that case.  On success the new position is stored
with `remaining_size = size` and capital is NOT touched. -/
def open_position (s : PMState) (sym dir : String) (ep : ℚ) (sz : Int) (cu : ℚ) :
    PMState :=
  if can_enter_position s sym cu then
    { s with positions :=
        (sym, { direction := dir, entry_price := ep, size := sz, capital_used := cu,
                remaining_size := some sz }) :: s.positions }
  else s

/-- Source: `PositionManager.partial_exit_position` (named `partExit_position`
here): marks the position partially exited, sets
`remaining_size = size - exit_size` (from the original size, not the
current remaining), and credits `pnl - fees` to the symbol's capital.
A missing position only logs and returns. -/
def partExit_position (s : PMState) (sym : String) (xp : ℚ) (xs : Int)
    (pnl fees : ℚ) : PMState :=
  match plookup s.positions sym with
  | none => s
  | some p =>
      { s with
        positions := upd_positions s.positions sym
          { p with partExited := true, partExit_price := some xp,
                   remaining_size := some (p.size - xs) }
        capital := fun x => if x = sym then s.capital x + (pnl - fees) else s.capital x }

/-- Source: `PositionManager.close_position`: credits `pnl - fees` once,
appends the closed record to the history, removes the position.  A missing
position only logs and returns. -/
def close_position (s : PMState) (sym : String) (xp : ℚ) (pnl fees : ℚ) : PMState :=
  match plookup s.positions sym with
  | none => s
  | some _ =>
      { s with
        capital := fun x => if x = sym then s.capital x + (pnl - fees) else s.capital x
        closed_positions := s.closed_positions ++ [{ exit_price := xp, pnl := pnl, fees := fees }]
        positions := s.positions.filter fun e => !(decide (e.1 = sym)) }

/-- One call against the tracker. -/
inductive PMOp
  | openPos (sym dir : String) (entry_price : ℚ) (size : Int) (capital_used : ℚ)
  | partExit (sym : String) (exit_price : ℚ) (exit_size : Int) (pnl fees : ℚ)
  | closePos (sym : String) (exit_price : ℚ) (pnl fees : ℚ)

/-- Dispatch of one call. -/
def pm_step (s : PMState) : PMOp → PMState
  | .openPos sym dir ep sz cu => open_position s sym dir ep sz cu
  | .partExit sym xp xs pnl fees => partExit_position s sym xp xs pnl fees
  | .closePos sym xp pnl fees => close_position s sym xp pnl fees

/-- The capital adjustment a single call performs: zero for an open, and
`pnl - fees` for a partial exit or close that finds its position. -/
def pm_credit (s : PMState) : PMOp → ℚ
  | .openPos _ _ _ _ _ => 0
  | .partExit sym _ _ pnl fees =>
      if (plookup s.positions sym).isSome then pnl - fees else 0
  | .closePos sym _ pnl fees =>
      if (plookup s.positions sym).isSome then pnl - fees else 0

/-- Σ(pnl - fees) over the effective partial exits and closes of a trace. -/
def pm_credits : PMState → List PMOp → ℚ
  | _, [] => 0
  | s, op :: rest => pm_credit s op + pm_credits (pm_step s op) rest

/-- Every open position belongs to a tracked symbol. -/
def posWF (s : PMState) : Prop := ∀ e ∈ s.positions, e.1 ∈ s.symbols

def c7sA : PMState :=
  pm_step (pm_step (pm_step (pmInit ["SOLUSD"] 1000)
    (PMOp.openPos "SOLUSD" "long" 150 10 0)) (PMOp.partExit "SOLUSD" 160 3 0 0))
    (PMOp.partExit "SOLUSD" 160 3 0 0)

def c7sB : PMState :=
  pm_step (pm_step (pmInit ["SOLUSD"] 1000)
    (PMOp.openPos "SOLUSD" "long" 150 10 0)) (PMOp.partExit "SOLUSD" 160 15 0 0)


/-- `OrderStatus` enum (the source's PARTIALLY_FILLED is `partFilled`
here). -/
inductive OrderStatus
  | pending
  | partFilled
  | filled
  | cancelled
  | rejected
  | expired
deriving DecidableEq

/-- The `Order` dataclass, restricted to the fields the order lifecycle
reads (identification, OB link, status tracking; timestamps, the
internal id, account and exchange echo fields are carried verbatim and
never branched on). -/
structure Order where
  order_id : Int
  symbol : String
  side : String
  size : Int
  price : Option ℚ
  ob_id : String
  status : OrderStatus := .pending
  filled_size : Int := 0
  remaining_size : Int := 0
  cancel_reason : Option String := none
deriving DecidableEq

/-- `OrderManager` state: the active-order dict (association list keyed by
exchange order id, in insertion order like a Python dict), the completed
history, and the `cancelled_orders` statistic (the only counter C8
reads). -/
structure OMState where
  orders : List (Int × Order) := []
  completed_orders : List Order := []
  cancelled_orders : Nat := 0
deriving DecidableEq

/-- Source: `OrderManager.get_order` — `self.orders.get(order_id)`. -/
def om_get_order (s : OMState) (oid : Int) : Option Order :=
  (s.orders.find? fun e => decide (e.1 = oid)).map fun e => e.2

/-- Source: `OrderManager.get_orders_by_ob` — the active orders linked to
the OB, in dict order. -/
def get_orders_by_ob (s : OMState) (ob : String) : List Order :=
  (s.orders.map fun e => e.2).filter fun o => decide (o.ob_id = ob)

/-- Source: `OrderManager.cancel_order`: any tracked order (no status
guard) is marked cancelled with the reason, then `_complete_order`
removes it from the active dict and appends it to the history;
`cancelled_orders` is bumped.  Returns False only when the id is
unknown. -/
def cancel_order (s : OMState) (oid : Int) (reason : String) : OMState × Bool :=
  match om_get_order s oid with
  | none => (s, false)
  | some o =>
      ({ s with
          orders := s.orders.filter fun e => !(decide (e.1 = oid))
          completed_orders := s.completed_orders ++
            [{ o with status := .cancelled, cancel_reason := some reason }]
          cancelled_orders := s.cancelled_orders + 1 }, true)

/-- The body of the loop in `cancel_orders_by_ob`: cancel one order,
counting the success. -/
def cancel_step (reason : String) (acc : OMState × Nat) (o : Order) : OMState × Nat :=
  let r := cancel_order acc.1 o.order_id reason
  (r.1, if r.2 then acc.2 + 1 else acc.2)

/-- Source: `OrderManager.cancel_orders_by_ob`: takes a snapshot of the
OB's orders, keeps ONLY those with status PENDING, and cancels each,
counting the successes. -/
def cancel_orders_by_ob (s : OMState) (ob reason : String) : OMState × Nat :=
  let pending := (get_orders_by_ob s ob).filter fun o => decide (o.status = .pending)
  pending.foldl (cancel_step reason) (s, 0)

/-- A pending and a partially filled order both resting on OB "X". -/
def oP : Order :=
  { order_id := 1, symbol := "SOLUSD", side := "buy", size := 5, price := some 100,
    ob_id := "X", status := .pending, remaining_size := 5 }

def oQ : Order :=
  { order_id := 2, symbol := "SOLUSD", side := "buy", size := 5, price := some 101,
    ob_id := "X", status := .partFilled, filled_size := 2, remaining_size := 3 }

def omC8 : OMState := { orders := [(1, oP), (2, oQ)] }


/-- A state file's bytes as `_safe_load` can observe them: either JSON
that parses (payload abstracted to the loaded data) or bytes that raise
`json.JSONDecodeError`. -/
inductive FContent
  | jsonOk (data : String)
  | jsonBad (raw : String)
deriving DecidableEq

/-- The data directory as a finite map path → file contents, represented
as an association list (first binding wins). -/
abbrev FS := List (String × FContent)

/-- Reading a path: `None` when the file does not exist. -/
def fs_read (fs : FS) (p : String) : Option FContent :=
  (fs.find? fun e => decide (e.1 = p)).map fun e => e.2

/-- `shutil.copy` / overwrite-write of one file: the destination gets the
new contents (new binding in front, stale bindings dropped); every other
path is untouched. -/
def fs_write (fs : FS) (p : String) (c : FContent) : FS :=
  (p, c) :: fs.filter fun e => !(decide (e.1 = p))

/-- Source: `StatePersistence._safe_load`.  Missing file → None.  Parsed
JSON → the data.  `JSONDecodeError` → `shutil.copy(filepath, backup_path)`
then None; the timestamped backup path
(`filepath.with_suffix(".corrupt.<ts>")`) is passed in as a parameter
since it is computed from the wall clock.  Note the source COPIES the
corrupt file: the original path keeps its contents. -/
def safe_load (fs : FS) (path backup : String) : Option String × FS :=
  match fs_read fs path with
  | none => (none, fs)
  | some (.jsonOk d) => (some d, fs)
  | some (.jsonBad raw) => (none, fs_write fs backup (.jsonBad raw))

/-- Modelled from the spec: the corrupt file is "renamed with a
timestamped `.corrupt.<ts>` suffix", i.e. moved, so the original path no
longer holds the corrupt payload. -/
def spec_safe_load (fs : FS) (path backup : String) : Option String × FS :=
  match fs_read fs path with
  | none => (none, fs)
  | some (.jsonOk d) => (some d, fs)
  | some (.jsonBad raw) =>
      (none, fs_write (fs.filter fun e => !(decide (e.1 = path))) backup (.jsonBad raw))

/-- A data directory holding one corrupt state file. -/
def c9fs : FS := [("data/ob_state.json", .jsonBad "not json")]

/-! ### General lemmas about the embedding -/

-- list helpers --------------------------------------------------------------

theorem replicate_append_one {α : Type} (k : Nat) (x : α) :
    List.replicate k x ++ [x] = List.replicate (k + 1) x := by
  induction k with
  | zero => rfl
  | succ n ih => simpa [List.replicate_succ] using ih

theorem replicate_append_cons {α : Type} (k : Nat) (x : α) (rest : List α) :
    List.replicate k x ++ x :: rest = x :: (List.replicate k x ++ rest) := by
  induction k with
  | zero => rfl
  | succ n ih => simpa [List.replicate_succ] using ih

theorem trList_single (x : BufCandle) : trList [x] = [] := rfl

theorem trList_cons2 (a b : BufCandle) (rest : List BufCandle) :
    trList (a :: b :: rest) = trueRange a b :: trList (b :: rest) := rfl

theorem trList_replicate_append (k : Nat) (x : BufCandle) (rest : List BufCandle) :
    trList (List.replicate k x ++ x :: rest) =
      List.replicate k (trueRange x x) ++ trList (x :: rest) := by
  induction k with
  | zero => simp
  | succ n ih =>
      rw [List.replicate_succ, List.cons_append, replicate_append_cons, trList_cons2,
        ← replicate_append_cons, ih, List.replicate_succ, List.cons_append]

theorem trList_replicate (k : Nat) (x : BufCandle) :
    trList (List.replicate (k + 1) x) = List.replicate k (trueRange x x) := by
  rw [← replicate_append_one, trList_replicate_append, trList_single, List.append_nil]

theorem getD_append_lt {α : Type} (l₁ l₂ : List α) (n : Nat) (d : α) (h : n < l₁.length) :
    (l₁ ++ l₂).getD n d = l₁.getD n d := by
  simp [List.getD, List.getElem?_append, h]

theorem getD_replicate_lt {α : Type} (k n : Nat) (x d : α) (h : n < k) :
    (List.replicate k x).getD n d = x := by
  simp [List.getD, List.getElem?_replicate, h]

theorem getD_append_ge {α : Type} (l₁ l₂ : List α) (n : Nat) (d : α) (h : l₁.length ≤ n) :
    (l₁ ++ l₂).getD n d = l₂.getD (n - l₁.length) d := by
  simp [List.getD, List.getElem?_append, Nat.not_lt.mpr h]

-- detect_pivots skip lemma ---------------------------------------------------

theorem detect_pivots_id (s : EngineState)
    (hlen : mslen * 2 + 1 ≤ s.candles_buffer.length)
    (hh : (s.candles_buffer.getD (s.candles_buffer.length - mslen - 1 - mslen) dfltBuf).high ≥
          (s.candles_buffer.getD (s.candles_buffer.length - mslen - 1) dfltBuf).high)
    (hl : (s.candles_buffer.getD (s.candles_buffer.length - mslen - 1 - mslen) dfltBuf).low ≤
          (s.candles_buffer.getD (s.candles_buffer.length - mslen - 1) dfltBuf).low) :
    detect_pivots s = s := by
  have hms : mslen = 5 := rfl
  have h1 : ¬ (s.candles_buffer.length < mslen * 2 + 1) := Nat.not_lt.mpr hlen
  have h2 : ¬ (s.candles_buffer.length - mslen - 1 < mslen) := by omega
  have hmem : s.candles_buffer.length - mslen - 1 - mslen ∈
      List.range' (s.candles_buffer.length - mslen - 1 - mslen) mslen := by
    rw [List.mem_range'_1]
    exact ⟨le_refl _, by omega⟩
  have hph : ¬ pivotHighAt s.candles_buffer (s.candles_buffer.length - mslen - 1)
      s.candles_buffer.length
      ((s.candles_buffer.getD (s.candles_buffer.length - mslen - 1) dfltBuf).high) :=
    fun hp => (hp.1 _ hmem) hh
  have hpl : ¬ pivotLowAt s.candles_buffer (s.candles_buffer.length - mslen - 1)
      s.candles_buffer.length
      ((s.candles_buffer.getD (s.candles_buffer.length - mslen - 1) dfltBuf).low) :=
    fun hp => (hp.1 _ hmem) hl
  simp only [detect_pivots]
  rw [if_neg h1, if_neg h2, if_neg hph, if_neg hpl]

-- flat candles ---------------------------------------------------------------

theorem trueRange_flat (p : ℚ) : trueRange (fbP p) (fbP p) = 0 := by
  norm_num [trueRange, fbP, flatC, Candle.toBuf]

theorem calcATR_flat (p : ℚ) : calcATR (List.replicate 200 (fbP p)) = some 0 := by
  simp only [calcATR, List.length_replicate]
  rw [if_neg (by decide : ¬ ((200:Nat) < 200))]
  rw [show (200 - 200 : Nat) = 0 from rfl, List.drop_zero,
    trList_replicate 199 (fbP p), trueRange_flat]
  simp only [List.sum_replicate, smul_zero, List.length_replicate, zero_div]

theorem getD_flatbuf (p : ℚ) (tail : List BufCandle) (i : Nat) (hi : i < 199) :
    ((List.replicate 199 (fbP p) ++ tail).getD i dfltBuf) = fbP p := by
  rw [getD_append_lt _ _ _ _ (by simp only [List.length_replicate]; exact hi),
    getD_replicate_lt _ _ _ _ hi]

-- the warm-up foldl ----------------------------------------------------------

theorem foldl_short (cs : List Candle) : ∀ (s : EngineState),
    s.candles_buffer.length + cs.length ≤ 199 →
    cs.foldl process_candle s =
      { s with candles_buffer := s.candles_buffer ++ cs.map Candle.toBuf,
               current_bar := s.current_bar + cs.length } := by
  induction cs with
  | nil => intro s _; simp
  | cons c rest ih =>
      intro s h
      simp only [List.foldl_cons]
      have hstep : process_candle s c =
          { s with candles_buffer := s.candles_buffer ++ [c.toBuf],
                   current_bar := s.current_bar + 1 } := by
        simp only [process_candle]
        have h1 : ¬ ((s.candles_buffer ++ [c.toBuf]).length > maxBufferSize) := by
          simp only [List.length_append, List.length_cons, List.length_nil, maxBufferSize]
          simp at h
          omega
        have h2 : (s.candles_buffer ++ [c.toBuf]).length < 200 := by
          simp only [List.length_append, List.length_cons, List.length_nil]
          simp at h
          omega
        rw [if_neg h1, if_pos h2]
      rw [hstep, ih]
      · simp [Nat.add_comm, Nat.add_left_comm, Nat.add_assoc]
      · simp at h ⊢
        omega

theorem detect_pivots_flat_tail (s : EngineState) (p : ℚ) (tail : List BufCandle)
    (hbuf : s.candles_buffer = List.replicate 199 (fbP p) ++ tail)
    (ht1 : 1 ≤ tail.length) (ht4 : tail.length ≤ 4) :
    detect_pivots s = s := by
  have hms : mslen = 5 := rfl
  have hlen : s.candles_buffer.length = 199 + tail.length := by
    rw [hbuf]; rw [List.length_append, List.length_replicate]
  have hlen2 : (List.replicate 199 (fbP p) ++ tail).length = 199 + tail.length := by
    rw [List.length_append, List.length_replicate]
  apply detect_pivots_id
  · omega
  · rw [hbuf, hlen2]
    rw [getD_flatbuf p tail _ (by omega), getD_flatbuf p tail _ (by omega)]
  · rw [hbuf, hlen2]
    rw [getD_flatbuf p tail _ (by omega), getD_flatbuf p tail _ (by omega)]

-- step 200: the first candle processed with a full buffer (state 0) ----------

set_option maxRecDepth 16000 in
theorem step_state0 (p : ℚ) (s : EngineState)
    (hbar : s.current_bar = 199)
    (hbuf : s.candles_buffer = List.replicate 199 (fbP p))
    (hms : s.ms = {}) (hup : s.up = none) (hdn : s.dn = none)
    (hbl : s.bullish_obs = []) (hbe : s.bearish_obs = []) :
    process_candle s (flatC p) =
      { s with
        current_bar := 200
        candles_buffer := List.replicate 199 (fbP p) ++ [fbP0 p]
        ms := { start := 1, trend := 0, bos := some p, choch := some p
                loc := 199, temp := 199, main := 0, xloc := 199 }
        up := some p, dn := some p } := by
  have hb : s.candles_buffer ++ [(flatC p).toBuf] = List.replicate 200 (fbP p) := by
    rw [hbuf]; exact replicate_append_one 199 (fbP p)
  have hdl : (List.replicate 200 (fbP p)).dropLast = List.replicate 199 (fbP p) := by
    rw [← replicate_append_one]; simp
  simp only [process_candle, hb, List.length_replicate]
  have hc1 : ¬ ((200:Nat) > maxBufferSize) := by decide
  have hc2 : ¬ ((200:Nat) < 200) := by decide
  rw [if_neg hc1]
  simp only [List.length_replicate]
  rw [if_neg hc2, calcATR_flat]
  simp only [hdl]
  have hfb0 : ({ (flatC p).toBuf with atr := some 0 } : BufCandle) = fbP0 p := rfl
  rw [hfb0]
  have hdp : detect_pivots { s with candles_buffer := List.replicate 199 (fbP p) ++ [fbP0 p] } =
      { s with candles_buffer := List.replicate 199 (fbP p) ++ [fbP0 p] } :=
    detect_pivots_flat_tail _ p [fbP0 p] rfl (by simp) (by simp)
  rw [hdp]
  simp only [process_market_structure, hup, hdn, hms, hbar, Option.getD_some, Option.getD_none,
    state0_step, check_mitigation, hbl, hbe, List.filterMap_nil, flatC, ite_self,
    lt_self_iff_false, gt_iff_lt, if_false, if_true, ite_false, ite_true]

theorem trList_replicate_cons (k : Nat) (x y : BufCandle) (rest : List BufCandle) :
    trList (List.replicate (k + 1) x ++ y :: rest) =
      List.replicate k (trueRange x x) ++ (trueRange x y :: trList (y :: rest)) := by
  induction k with
  | zero => simp [trList_cons2]
  | succ n ih =>
      have hexp : List.replicate (n + 1 + 1) x ++ y :: rest =
          x :: (x :: (List.replicate n x ++ y :: rest)) := by
        rw [List.replicate_succ, List.cons_append, List.replicate_succ, List.cons_append]
      have hexp2 : x :: (List.replicate n x ++ y :: rest) =
          List.replicate (n + 1) x ++ y :: rest := by
        rw [List.replicate_succ, List.cons_append]
      rw [hexp, trList_cons2, hexp2, ih, List.replicate_succ, List.cons_append]

theorem calcATR_doji :
    calcATR ((List.replicate 199 (fbP 100) ++ [fbP0 100]) ++ [doji99.toBuf]) = some (1/199) := by
  have hlen : ((List.replicate 199 (fbP 100) ++ [fbP0 100]) ++ [doji99.toBuf]).length = 201 := by
    simp only [List.length_append, List.length_replicate, List.length_cons, List.length_nil]
  simp only [calcATR, hlen]
  rw [if_neg (by decide : ¬ ((201:Nat) < 200))]
  rw [show (201 - 200 : Nat) = 1 from rfl]
  rw [List.append_assoc, List.cons_append, List.nil_append]
  rw [show (199 : Nat) = 198 + 1 from rfl, List.replicate_succ, List.cons_append, List.drop_one,
    List.tail_cons]
  rw [trList_replicate_cons 197 (fbP 100) (fbP0 100) [doji99.toBuf]]
  have h1 : trueRange (fbP 100) (fbP 100) = 0 := trueRange_flat 100
  have h2 : trueRange (fbP 100) (fbP0 100) = 0 := by
    norm_num [trueRange, fbP, fbP0, flatC, Candle.toBuf]
  have h3 : trueRange (fbP0 100) doji99.toBuf = 1 := by
    norm_num [trueRange, fbP, fbP0, flatC, doji99, Candle.toBuf]
  rw [trList_cons2, trList_single, h1, h2, h3]
  simp only [List.sum_append, List.sum_replicate, smul_zero, List.sum_cons, List.sum_nil,
    List.length_append, List.length_replicate, List.length_cons, List.length_nil]
  norm_num [lenParam]

theorem find_sp_doji (t : EngineState)
    (hbar : t.current_bar = 200)
    (hloc : t.ms.loc = 199)
    (hn : t.candles_buffer.length = 201) :
    find_structure_point t false false = 0 := by
  simp only [find_structure_point, Bool.false_eq_true, ite_false, hloc, hbar, hn]
  rw [show max 1 (200 - 199) = 1 from rfl]
  rw [show List.range 1 = [0] from rfl]
  simp only [findLowAux]
  rw [if_pos (by decide : (0:Nat) < 201)]
  split <;> rfl

theorem create_ob_doji (t : EngineState)
    (hbar : t.current_bar = 200)
    (hloc : t.ms.loc = 199)
    (hbuf : t.candles_buffer = (List.replicate 199 (fbP 100) ++ [fbP0 100]) ++ [doji99atr]) :
    create_order_block t true = { t with bullish_obs := obC3 :: t.bullish_obs } := by
  have hn : t.candles_buffer.length = 201 := by
    rw [hbuf]
    simp only [List.length_append, List.length_replicate, List.length_cons, List.length_nil]
  have hget : t.candles_buffer.getD 200 dfltBuf = doji99atr := by
    rw [hbuf, getD_append_ge _ _ _ _ (by
      simp only [List.length_append, List.length_replicate, List.length_cons, List.length_nil]
      omega)]
    simp only [List.length_append, List.length_replicate, List.length_cons, List.length_nil]
    rfl
  simp only [create_order_block, find_sp_doji t hbar hloc hn, hn, hbar]
  rw [if_neg (by decide : ¬ ((201:Nat) ≤ 201 - 0 - 1))]
  rw [show (201 - 0 - 1 : Nat) = 200 from rfl, hget]
  have htop : ((doji99atr.low + doji99atr.atr.getD 0 > doji99atr.high) = True) := by
    norm_num [doji99atr, doji99, Candle.toBuf]
  simp only [obmode, htop, ite_true]
  have hdir : ((doji99atr.close > doji99atr.opn) = False) := by
    norm_num [doji99atr, doji99, Candle.toBuf]
  simp only [hdir, ite_false]
  norm_num [doji99atr, doji99, Candle.toBuf, obC3]

set_option maxRecDepth 8000 in
theorem pms_doji (t : EngineState)
    (hbar : t.current_bar = 200) (hms : t.ms = msC3)
    (hup : t.up = some 100) (hdn : t.dn = some 100)
    (hbuf : t.candles_buffer = (List.replicate 199 (fbP 100) ++ [fbP0 100]) ++ [doji99atr]) :
    process_market_structure t doji99 =
      { t with ms := msC3out, up := some 99, dn := some 99
               bullish_obs := obC3 :: t.bullish_obs } := by
  simp only [process_market_structure, hup, hdn, Option.getD_some]
  have c1 : ((doji99.high > (100:ℚ)) = False) := by norm_num [doji99]
  have c2 : ((doji99.low < (100:ℚ)) = True) := by norm_num [doji99]
  simp only [c1, c2, ite_false, ite_true, if_false, if_true, decide_eq_true_eq, hms, msC3]
  simp only [state1_step]
  rw [if_neg (by norm_num [buildsweep, doji99] :
    ¬ (buildsweep = true ∧ doji99.low ≤ (100:ℚ) ∧ doji99.close ≥ (100:ℚ)))]
  rw [if_neg (by norm_num [buildsweep, doji99] :
    ¬ (buildsweep = true ∧ doji99.high ≥ (100:ℚ) ∧ doji99.close ≤ (100:ℚ)))]
  rw [if_pos (by norm_num [doji99] : doji99.close ≤ (100:ℚ))]
  rw [if_neg (by decide : ¬ ((1:Nat) = 0))]
  rw [create_ob_doji
    { current_bar := t.current_bar
      ms := { zn := 0, zz := 0, bos := some 100, choch := some 100, loc := 199, temp := 199
              trend := 0, start := 1, main := 0, xloc := 199, upsweep := false
              dnsweep := false, txt := "choch" }
      bullish_obs := t.bullish_obs, bearish_obs := t.bearish_obs
      candles_buffer := t.candles_buffer, up := some doji99.high, dn := some doji99.low
      pivot_highs := t.pivot_highs, pivot_lows := t.pivot_lows } hbar rfl hbuf]
  norm_num [doji99, msC3out, msC3, hbar]

theorem mitigate_bullish_obC3 (bar : Nat) : mitigate_bullish bar doji99 obC3 = obC3 := by
  simp only [mitigate_bullish, obC3, obmiti]
  norm_num [doji99]

theorem mitigation_doji (t : EngineState)
    (hbl : t.bullish_obs = [obC3]) (hbe : t.bearish_obs = []) :
    check_mitigation t doji99 = t := by
  simp only [check_mitigation, hbl, hbe, List.filterMap_nil, List.filterMap_cons,
    mitigate_bullish_obC3]
  rw [if_neg (by norm_num [obC3] : ¬ (obC3.invalidated = true))]
  rw [if_neg (by norm_num [obC3] : ¬ (obC3.invalidated = true))]
  show ({ t with bullish_obs := [obC3], bearish_obs := [] } : EngineState) = t
  rw [← hbl, ← hbe]

set_option maxRecDepth 8000 in
theorem step_doji (s : EngineState)
    (hbar : s.current_bar = 200)
    (hbuf : s.candles_buffer = List.replicate 199 (fbP 100) ++ [fbP0 100])
    (hms : s.ms = msC3) (hup : s.up = some 100) (hdn : s.dn = some 100)
    (hbl : s.bullish_obs = []) (hbe : s.bearish_obs = []) :
    process_candle s doji99 =
      { s with
        current_bar := 201
        candles_buffer := (List.replicate 199 (fbP 100) ++ [fbP0 100]) ++ [doji99atr]
        ms := msC3out
        bullish_obs := [obC3]
        up := some 99, dn := some 99 } := by
  have hlen1 : ((List.replicate 199 (fbP 100) ++ [fbP0 100]) ++ [doji99.toBuf]).length = 201 := by
    simp only [List.length_append, List.length_replicate, List.length_cons, List.length_nil]
  simp only [process_candle, hbuf, hlen1]
  have hc1 : ¬ ((201:Nat) > maxBufferSize) := by decide
  have hc2 : ¬ ((201:Nat) < 200) := by decide
  rw [if_neg hc1]
  simp only [hlen1]
  rw [if_neg hc2, calcATR_doji]
  rw [List.dropLast_concat]
  simp only [Option.some.injEq]
  have hda : ({ doji99.toBuf with atr := some (1/199) } : BufCandle) = doji99atr := rfl
  rw [hda]
  have hdp : detect_pivots { s with candles_buffer :=
      (List.replicate 199 (fbP 100) ++ [fbP0 100]) ++ [doji99atr] } =
      { s with candles_buffer := (List.replicate 199 (fbP 100) ++ [fbP0 100]) ++ [doji99atr] } :=
    detect_pivots_flat_tail _ 100 [fbP0 100, doji99atr] (by rw [List.append_assoc]; rfl)
      (by simp) (by simp)
  rw [hdp]
  rw [pms_doji { s with candles_buffer := (List.replicate 199 (fbP 100) ++ [fbP0 100]) ++ [doji99atr] }
    hbar hms hup hdn rfl]
  set R : EngineState := { s with candles_buffer := (List.replicate 199 (fbP 100) ++ [fbP0 100]) ++ [doji99atr], ms := msC3out, up := some 99, dn := some 99, bullish_obs := obC3 :: s.bullish_obs } with hR
  have hm : check_mitigation R doji99 = R :=
    mitigation_doji R (by rw [hR]; show obC3 :: s.bullish_obs = [obC3]; rw [hbl])
      (by rw [hR]; show s.bearish_obs = []; exact hbe)
  rw [hm, hR]
  simp only [hbar, hbl]

set_option maxRecDepth 8000 in
/-- C3: counterexample.  A doji candle (open = close = high = low = 99)
that sweeps the tracked low creates an order block with `top = btm = 99`:
a zero-height zone, refuting the claim's strict `btm < top` bound.  The
run is a full 201-candle engine execution reaching the creation bar. -/
theorem C3_counterexample :
    ((runEngine c3Candles).bullish_obs.map fun ob => (ob.top, ob.btm)) = [(99, 99)] ∧
    ¬ ((99 : ℚ) < 99) := by
  constructor
  · have hsplit : c3Candles = (List.replicate 199 (flatC 100)) ++ ([flatC 100] ++ [doji99]) := by
      rw [c3Candles, ← replicate_append_one 199 (flatC 100), List.append_assoc]
    rw [runEngine, hsplit, List.foldl_append]
    rw [foldl_short (List.replicate 199 (flatC 100)) engineInit (by decide)]
    simp only [engineInit, List.nil_append, List.map_replicate, List.length_replicate,
      Nat.zero_add]
    rw [show (flatC 100).toBuf = fbP 100 from rfl]
    simp only [List.cons_append, List.nil_append, List.foldl_cons, List.foldl_nil]
    rw [step_state0 100
      { current_bar := 199, ms := {}, bullish_obs := [], bearish_obs := [], candles_buffer := List.replicate 199 (fbP 100), up := none, dn := none, pivot_highs := [], pivot_lows := [] }
      rfl rfl rfl rfl rfl rfl rfl]
    rw [step_doji
      { current_bar := 200, ms := { zn := 0, zz := 0, bos := some 100, choch := some 100, loc := 199, temp := 199, trend := 0, start := 1, main := 0, xloc := 199, upsweep := false, dnsweep := false, txt := "" }, bullish_obs := [], bearish_obs := [], candles_buffer := List.replicate 199 (fbP 100) ++ [fbP0 100], up := some 100, dn := some 100, pivot_highs := [], pivot_lows := [] }
      rfl rfl rfl rfl rfl rfl rfl]
    norm_num [obC3]
  · norm_num

theorem specLowScan_eq (buffer : List BufCandle) (n : Nat) :
    ∀ (offs : List Nat) (b : Nat × ℚ),
      specLowScan buffer n offs (some b) = some (findLowAux buffer n offs b) := by
  intro offs
  induction offs with
  | nil => intro b; rfl
  | cons i rest ih =>
      intro b
      simp only [specLowScan, findLowAux]
      by_cases h : i < n
      · simp only [if_pos h]
        by_cases hv : (buffer.getD (n - 1 - i) dfltBuf).low < b.2
        · simp only [if_pos hv, ih]
        · simp only [if_neg hv, ih]
      · simp only [if_neg h, ih]

theorem specHighScan_eq (buffer : List BufCandle) (n : Nat) :
    ∀ (offs : List Nat) (b : Nat × ℚ),
      specHighScan buffer n offs (some b) = some (findHighAux buffer n offs b) := by
  intro offs
  induction offs with
  | nil => intro b; rfl
  | cons i rest ih =>
      intro b
      simp only [specHighScan, findHighAux]
      by_cases h : i < n
      · simp only [if_pos h]
        by_cases hv : (buffer.getD (n - 1 - i) dfltBuf).high > b.2
        · simp only [if_pos hv, ih]
        · simp only [if_neg hv, ih]
      · simp only [if_neg h, ih]

theorem findLowAux_inv (buffer : List BufCandle) (n : Nat) :
    ∀ (offs : List Nat) (best : Nat × ℚ),
      (findLowAux buffer n offs best).2 ≤ best.2 ∧
      (∀ j ∈ offs, j < n →
        (findLowAux buffer n offs best).2 ≤ (buffer.getD (n - 1 - j) dfltBuf).low) ∧
      ((findLowAux buffer n offs best).1 = best.1 ∨
        ((findLowAux buffer n offs best).1 ∈ offs ∧ (findLowAux buffer n offs best).1 < n)) := by
  intro offs
  induction offs with
  | nil =>
      intro best
      exact ⟨le_refl _, fun j hj _ => absurd hj (List.not_mem_nil j), Or.inl rfl⟩
  | cons i rest ih =>
      intro best
      simp only [findLowAux]
      by_cases h : i < n
      · simp only [if_pos h]
        by_cases hv : (buffer.getD (n - 1 - i) dfltBuf).low < best.2
        · simp only [if_pos hv]
          obtain ⟨h1, h2, h3⟩ := ih (i, (buffer.getD (n - 1 - i) dfltBuf).low)
          refine ⟨le_trans h1 (le_of_lt hv), ?_, ?_⟩
          · intro j hj hjn
            rcases List.mem_cons.mp hj with rfl | hj2
            · exact h1
            · exact h2 j hj2 hjn
          · rcases h3 with h3 | h3
            · exact Or.inr ⟨by rw [h3]; exact List.mem_cons_self i rest, by rw [h3]; exact h⟩
            · exact Or.inr ⟨List.mem_cons_of_mem i h3.1, h3.2⟩
        · simp only [if_neg hv]
          obtain ⟨h1, h2, h3⟩ := ih best
          push_neg at hv
          refine ⟨h1, ?_, ?_⟩
          · intro j hj hjn
            rcases List.mem_cons.mp hj with rfl | hj2
            · exact le_trans h1 hv
            · exact h2 j hj2 hjn
          · rcases h3 with h3 | h3
            · exact Or.inl h3
            · exact Or.inr ⟨List.mem_cons_of_mem i h3.1, h3.2⟩
      · simp only [if_neg h]
        obtain ⟨h1, h2, h3⟩ := ih best
        refine ⟨h1, ?_, ?_⟩
        · intro j hj hjn
          rcases List.mem_cons.mp hj with rfl | hj2
          · exact absurd hjn h
          · exact h2 j hj2 hjn
        · rcases h3 with h3 | h3
          · exact Or.inl h3
          · exact Or.inr ⟨List.mem_cons_of_mem i h3.1, h3.2⟩

theorem findHighAux_inv (buffer : List BufCandle) (n : Nat) :
    ∀ (offs : List Nat) (best : Nat × ℚ),
      best.2 ≤ (findHighAux buffer n offs best).2 ∧
      (∀ j ∈ offs, j < n →
        (buffer.getD (n - 1 - j) dfltBuf).high ≤ (findHighAux buffer n offs best).2) ∧
      ((findHighAux buffer n offs best).1 = best.1 ∨
        ((findHighAux buffer n offs best).1 ∈ offs ∧ (findHighAux buffer n offs best).1 < n)) := by
  intro offs
  induction offs with
  | nil =>
      intro best
      exact ⟨le_refl _, fun j hj _ => absurd hj (List.not_mem_nil j), Or.inl rfl⟩
  | cons i rest ih =>
      intro best
      simp only [findHighAux]
      by_cases h : i < n
      · simp only [if_pos h]
        by_cases hv : (buffer.getD (n - 1 - i) dfltBuf).high > best.2
        · simp only [if_pos hv]
          obtain ⟨h1, h2, h3⟩ := ih (i, (buffer.getD (n - 1 - i) dfltBuf).high)
          refine ⟨le_trans (le_of_lt hv) h1, ?_, ?_⟩
          · intro j hj hjn
            rcases List.mem_cons.mp hj with rfl | hj2
            · exact h1
            · exact h2 j hj2 hjn
          · rcases h3 with h3 | h3
            · exact Or.inr ⟨by rw [h3]; exact List.mem_cons_self i rest, by rw [h3]; exact h⟩
            · exact Or.inr ⟨List.mem_cons_of_mem i h3.1, h3.2⟩
        · simp only [if_neg hv]
          obtain ⟨h1, h2, h3⟩ := ih best
          push_neg at hv
          refine ⟨h1, ?_, ?_⟩
          · intro j hj hjn
            rcases List.mem_cons.mp hj with rfl | hj2
            · exact le_trans hv h1
            · exact h2 j hj2 hjn
          · rcases h3 with h3 | h3
            · exact Or.inl h3
            · exact Or.inr ⟨List.mem_cons_of_mem i h3.1, h3.2⟩
      · simp only [if_neg h]
        obtain ⟨h1, h2, h3⟩ := ih best
        refine ⟨h1, ?_, ?_⟩
        · intro j hj hjn
          rcases List.mem_cons.mp hj with rfl | hj2
          · exact absurd hjn h
          · exact h2 j hj2 hjn
        · rcases h3 with h3 | h3
          · exact Or.inl h3
          · exact Or.inr ⟨List.mem_cons_of_mem i h3.1, h3.2⟩

theorem spec_offset_low_eq (s : EngineState)
    (hne : s.candles_buffer ≠ [])
    (hlow : ∀ c ∈ s.candles_buffer, c.low < 99999999) :
    spec_structure_offset s false = find_structure_point s false false := by
  have hn : 0 < s.candles_buffer.length := List.length_pos.mpr hne
  have hmem : s.candles_buffer.getD (s.candles_buffer.length - 1 - 0) dfltBuf ∈
      s.candles_buffer := by
    rw [List.getD_eq_getElem s.candles_buffer dfltBuf (by omega)]
    exact List.getElem_mem _
  have h0 : (s.candles_buffer.getD (s.candles_buffer.length - 1 - 0) dfltBuf).low
      < 99999999 := hlow _ hmem
  have hsr1 : 0 < max 1 (s.current_bar - s.ms.loc) := le_max_left 1 _
  have hscan : specLowScan s.candles_buffer s.candles_buffer.length
      (List.range (max 1 (s.current_bar - s.ms.loc))) none
      = some (findLowAux s.candles_buffer s.candles_buffer.length
          (List.range (max 1 (s.current_bar - s.ms.loc))) (0, 99999999)) := by
    obtain ⟨k, hk⟩ : ∃ k, max 1 (s.current_bar - s.ms.loc) = k + 1 :=
      ⟨max 1 (s.current_bar - s.ms.loc) - 1, (Nat.succ_pred_eq_of_pos hsr1).symm⟩
    rw [hk, List.range_succ_eq_map]
    simp only [specLowScan, findLowAux, if_pos hn]
    rw [if_pos h0]
    exact specLowScan_eq s.candles_buffer s.candles_buffer.length _ _
  obtain ⟨⟨i, v⟩, hr⟩ : ∃ p, findLowAux s.candles_buffer s.candles_buffer.length
      (List.range (max 1 (s.current_bar - s.ms.loc))) (0, 99999999) = p := ⟨_, rfl⟩
  rw [hr] at hscan
  simp only [spec_structure_offset, find_structure_point, Bool.false_eq_true, if_false,
    eq_self_iff_true, if_true, hscan, hr]
  by_cases hi : 0 < i
  · rw [if_pos hi]
    have hinv := findLowAux_inv s.candles_buffer s.candles_buffer.length
      (List.range (max 1 (s.current_bar - s.ms.loc))) (0, 99999999)
    rw [hr] at hinv
    obtain ⟨-, h2, h3⟩ := hinv
    rcases h3 with h3 | ⟨h3a, h3b⟩
    · simp only at h3; omega
    · simp only at h3a h3b
      have hji : i - 1 ∈ List.range (max 1 (s.current_bar - s.ms.loc)) :=
        List.mem_range.mpr (lt_of_le_of_lt (Nat.sub_le i 1) (List.mem_range.mp h3a))
      have hjn : i - 1 < s.candles_buffer.length :=
        lt_of_le_of_lt (Nat.sub_le i 1) h3b
      have hge := h2 (i - 1) hji hjn
      simp only at hge
      rw [if_neg (not_lt.mpr hge)]
  · rw [if_neg hi]

theorem spec_offset_high_eq (s : EngineState)
    (hne : s.candles_buffer ≠ [])
    (hhigh : ∀ c ∈ s.candles_buffer, 0 < c.high) :
    spec_structure_offset s true = find_structure_point s true false := by
  have hn : 0 < s.candles_buffer.length := List.length_pos.mpr hne
  have hmem : s.candles_buffer.getD (s.candles_buffer.length - 1 - 0) dfltBuf ∈
      s.candles_buffer := by
    rw [List.getD_eq_getElem s.candles_buffer dfltBuf (by omega)]
    exact List.getElem_mem _
  have h0 : (0:ℚ) < (s.candles_buffer.getD (s.candles_buffer.length - 1 - 0) dfltBuf).high :=
    hhigh _ hmem
  have hsr1 : 0 < max 1 (s.current_bar - s.ms.loc) := le_max_left 1 _
  have hscan : specHighScan s.candles_buffer s.candles_buffer.length
      (List.range (max 1 (s.current_bar - s.ms.loc))) none
      = some (findHighAux s.candles_buffer s.candles_buffer.length
          (List.range (max 1 (s.current_bar - s.ms.loc))) (0, 0)) := by
    obtain ⟨k, hk⟩ : ∃ k, max 1 (s.current_bar - s.ms.loc) = k + 1 :=
      ⟨max 1 (s.current_bar - s.ms.loc) - 1, (Nat.succ_pred_eq_of_pos hsr1).symm⟩
    rw [hk, List.range_succ_eq_map]
    simp only [specHighScan, findHighAux, if_pos hn]
    rw [if_pos h0]
    exact specHighScan_eq s.candles_buffer s.candles_buffer.length _ _
  obtain ⟨⟨i, v⟩, hr⟩ : ∃ p, findHighAux s.candles_buffer s.candles_buffer.length
      (List.range (max 1 (s.current_bar - s.ms.loc))) (0, 0) = p := ⟨_, rfl⟩
  rw [hr] at hscan
  simp only [spec_structure_offset, find_structure_point, Bool.false_eq_true, if_false,
    eq_self_iff_true, if_true, hscan, hr]
  by_cases hi : 0 < i
  · rw [if_pos hi]
    have hinv := findHighAux_inv s.candles_buffer s.candles_buffer.length
      (List.range (max 1 (s.current_bar - s.ms.loc))) (0, 0)
    rw [hr] at hinv
    obtain ⟨-, h2, h3⟩ := hinv
    rcases h3 with h3 | ⟨h3a, h3b⟩
    · simp only at h3; omega
    · simp only at h3a h3b
      have hji : i - 1 ∈ List.range (max 1 (s.current_bar - s.ms.loc)) :=
        List.mem_range.mpr (lt_of_le_of_lt (Nat.sub_le i 1) (List.mem_range.mp h3a))
      have hjn : i - 1 < s.candles_buffer.length :=
        lt_of_le_of_lt (Nat.sub_le i 1) h3b
      have hge := h2 (i - 1) hji hjn
      simp only at hge
      rw [if_neg (not_lt.mpr hge)]
  · rw [if_neg hi]

theorem min_as_ite (h l a : ℚ) : (if l + a > h then h else l + a) = min h (l + a) := by
  rw [min_def]
  split_ifs <;> linarith

theorem max_as_ite (h l a : ℚ) : (if h - a < l then l else h - a) = max l (h - a) := by
  rw [max_def]
  split_ifs <;> linarith

theorem create_eq_spec_bull (s : EngineState)
    (hne : s.candles_buffer ≠ [])
    (hlow : ∀ c ∈ s.candles_buffer, c.low < 99999999) :
    create_order_block s true = spec_create_order_block s true := by
  have hn : 0 < s.candles_buffer.length := List.length_pos.mpr hne
  have hidx := spec_offset_low_eq s hne hlow
  simp only [create_order_block, spec_create_order_block, obmode, eq_self_iff_true, if_true,
    hidx]
  rw [if_neg (by omega : ¬(s.candles_buffer.length ≤
      s.candles_buffer.length - find_structure_point s false false - 1))]
  rw [if_neg (by omega : ¬(s.candles_buffer.length = 0))]
  rw [show s.candles_buffer.length - find_structure_point s false false - 1
      = s.candles_buffer.length - 1 - find_structure_point s false false from by omega]
  rw [min_as_ite]

theorem create_eq_spec_bear (s : EngineState)
    (hne : s.candles_buffer ≠ [])
    (hhigh : ∀ c ∈ s.candles_buffer, 0 < c.high) :
    create_order_block s false = spec_create_order_block s false := by
  have hn : 0 < s.candles_buffer.length := List.length_pos.mpr hne
  have hidx := spec_offset_high_eq s hne hhigh
  simp only [create_order_block, spec_create_order_block, obmode, Bool.false_eq_true, if_false,
    hidx]
  rw [if_neg (by omega : ¬(s.candles_buffer.length ≤
      s.candles_buffer.length - find_structure_point s true false - 1))]
  rw [if_neg (by omega : ¬(s.candles_buffer.length = 0))]
  rw [show s.candles_buffer.length - find_structure_point s true false - 1
      = s.candles_buffer.length - 1 - find_structure_point s true false from by omega]
  rw [max_as_ite]

/-- C1: amended.  As long as every buffered low is below the source's
99999999.0 sentinel and every buffered high is positive (true of any sane
price series), the engine computes order-block coordinates exactly as the
spec describes: the backward extremum search picks the same bar (the
spec's length adjustment can never fire, because the scan already returns
the most recent bar attaining the window extremum, so the bar at `k+1` is
never strictly more extreme), and the bullish OB gets `btm = low`,
`top = min (high, low + atr)` (bearish mirror), inserted at the head of
its list.  For prices at or above the sentinel the two sides diverge (see
the counterexample). -/
theorem C1_amended (s : EngineState)
    (hne : s.candles_buffer ≠ [])
    (hlow : ∀ c ∈ s.candles_buffer, c.low < 99999999)
    (hhigh : ∀ c ∈ s.candles_buffer, 0 < c.high) :
    create_order_block s true = spec_create_order_block s true ∧
    create_order_block s false = spec_create_order_block s false :=
  ⟨create_eq_spec_bull s hne hlow, create_eq_spec_bear s hne hhigh⟩

/-- Witness for `C1_amended` at a concrete one-candle state. -/
theorem C1_amended_witness :
    W1.candles_buffer ≠ [] ∧
    (∀ c ∈ W1.candles_buffer, c.low < 99999999) ∧
    (∀ c ∈ W1.candles_buffer, (0:ℚ) < c.high) ∧
    (create_order_block W1 true = spec_create_order_block W1 true ∧
     create_order_block W1 false = spec_create_order_block W1 false) := by
  have hne : W1.candles_buffer ≠ [] := by
    simp only [W1]
    exact List.cons_ne_nil _ _
  have hlow : ∀ c ∈ W1.candles_buffer, c.low < 99999999 := by
    intro c hc
    simp only [W1, List.mem_singleton] at hc
    rw [hc]
    norm_num [fbP, flatC, Candle.toBuf]
  have hhigh : ∀ c ∈ W1.candles_buffer, (0:ℚ) < c.high := by
    intro c hc
    simp only [W1, List.mem_singleton] at hc
    rw [hc]
    norm_num [fbP, flatC, Candle.toBuf]
  exact ⟨hne, hlow, hhigh, C1_amended W1 hne hlow hhigh⟩

theorem calcATR_c201 :
    calcATR ((List.replicate 199 (fbP 100000000) ++ [fbP0 100000000]) ++ [c201.toBuf])
      = some (4/199) := by
  have hlen : ((List.replicate 199 (fbP 100000000) ++ [fbP0 100000000]) ++ [c201.toBuf]).length
      = 201 := by
    simp only [List.length_append, List.length_replicate, List.length_cons, List.length_nil]
  simp only [calcATR, hlen]
  rw [if_neg (by decide : ¬ ((201:Nat) < 200))]
  rw [show (201 - 200 : Nat) = 1 from rfl]
  rw [List.append_assoc, List.cons_append, List.nil_append]
  rw [show (199 : Nat) = 198 + 1 from rfl, List.replicate_succ, List.cons_append, List.drop_one,
    List.tail_cons]
  rw [trList_replicate_cons 197 (fbP 100000000) (fbP0 100000000) [c201.toBuf]]
  have h1 : trueRange (fbP 100000000) (fbP 100000000) = 0 := trueRange_flat _
  have h2 : trueRange (fbP 100000000) (fbP0 100000000) = 0 := by
    norm_num [trueRange, fbP, fbP0, flatC, Candle.toBuf]
  have h3 : trueRange (fbP0 100000000) c201.toBuf = 4 := by
    norm_num [trueRange, fbP, fbP0, flatC, c201, Candle.toBuf]
  rw [trList_cons2, trList_single, h1, h2, h3]
  simp only [List.sum_append, List.sum_replicate, smul_zero, List.sum_cons, List.sum_nil,
    List.length_append, List.length_replicate, List.length_cons, List.length_nil]
  norm_num [lenParam]

theorem calcATR_c202 :
    calcATR (((List.replicate 199 (fbP 100000000) ++ [fbP0 100000000]) ++ [c201a])
        ++ [c202.toBuf]) = some (5/199) := by
  have hlen : ((((List.replicate 199 (fbP 100000000) ++ [fbP0 100000000]) ++ [c201a])
      ++ [c202.toBuf])).length = 202 := by
    simp only [List.length_append, List.length_replicate, List.length_cons, List.length_nil]
  simp only [calcATR, hlen]
  rw [if_neg (by decide : ¬ ((202:Nat) < 200))]
  rw [show (202 - 200 : Nat) = 2 from rfl]
  simp only [List.append_assoc, List.cons_append, List.nil_append]
  rw [show (199 : Nat) = 197 + 1 + 1 from rfl, List.replicate_succ, List.replicate_succ,
    List.cons_append, List.cons_append]
  rw [List.drop_succ_cons, List.drop_succ_cons, List.drop_zero]
  rw [show (197 : Nat) = 196 + 1 from rfl]
  rw [trList_replicate_cons 196 (fbP 100000000) (fbP0 100000000) [c201a, c202.toBuf]]
  have h1 : trueRange (fbP 100000000) (fbP 100000000) = 0 := trueRange_flat _
  have h2 : trueRange (fbP 100000000) (fbP0 100000000) = 0 := by
    norm_num [trueRange, fbP, fbP0, flatC, Candle.toBuf]
  have h3 : trueRange (fbP0 100000000) c201a = 4 := by
    norm_num [trueRange, fbP, fbP0, flatC, c201a, c201, Candle.toBuf]
  have h4 : trueRange c201a c202.toBuf = 1 := by
    norm_num [trueRange, c201a, c201, c202, Candle.toBuf, abs_of_nonneg, abs_of_nonpos]
  rw [trList_cons2, trList_cons2, trList_single, h1, h2, h3, h4]
  simp only [List.sum_append, List.sum_replicate, smul_zero, List.sum_cons, List.sum_nil,
    List.length_append, List.length_replicate, List.length_cons, List.length_nil]
  norm_num [lenParam]

theorem calcATR_c203 :
    calcATR ((((List.replicate 199 (fbP 100000000) ++ [fbP0 100000000]) ++ [c201a])
        ++ [c202a]) ++ [c203.toBuf]) = some (9/199) := by
  have hlen : (((((List.replicate 199 (fbP 100000000) ++ [fbP0 100000000]) ++ [c201a])
      ++ [c202a]) ++ [c203.toBuf])).length = 203 := by
    simp only [List.length_append, List.length_replicate, List.length_cons, List.length_nil]
  simp only [calcATR, hlen]
  rw [if_neg (by decide : ¬ ((203:Nat) < 200))]
  rw [show (203 - 200 : Nat) = 3 from rfl]
  simp only [List.append_assoc, List.cons_append, List.nil_append]
  rw [show (199 : Nat) = 196 + 1 + 1 + 1 from rfl, List.replicate_succ, List.replicate_succ,
    List.replicate_succ, List.cons_append, List.cons_append, List.cons_append]
  rw [List.drop_succ_cons, List.drop_succ_cons, List.drop_succ_cons, List.drop_zero]
  rw [show (196 : Nat) = 195 + 1 from rfl]
  rw [trList_replicate_cons 195 (fbP 100000000) (fbP0 100000000) [c201a, c202a, c203.toBuf]]
  have h1 : trueRange (fbP 100000000) (fbP 100000000) = 0 := trueRange_flat _
  have h2 : trueRange (fbP 100000000) (fbP0 100000000) = 0 := by
    norm_num [trueRange, fbP, fbP0, flatC, Candle.toBuf]
  have h3 : trueRange (fbP0 100000000) c201a = 4 := by
    norm_num [trueRange, fbP, fbP0, flatC, c201a, c201, Candle.toBuf]
  have h4 : trueRange c201a c202a = 1 := by
    norm_num [trueRange, c201a, c201, c202a, c202, Candle.toBuf, abs_of_nonneg, abs_of_nonpos]
  have h5 : trueRange c202a c203.toBuf = 4 := by
    norm_num [trueRange, c202a, c202, c203, Candle.toBuf, abs_of_nonneg, abs_of_nonpos]
  rw [trList_cons2, trList_cons2, trList_cons2, trList_single, h1, h2, h3, h4, h5]
  simp only [List.sum_append, List.sum_replicate, smul_zero, List.sum_cons, List.sum_nil,
    List.length_append, List.length_replicate, List.length_cons, List.length_nil]
  norm_num [lenParam]

theorem get?_append_lt {α : Type} (l₁ l₂ : List α) (n : Nat) (h : n < l₁.length) :
    (l₁ ++ l₂).get? n = l₁.get? n := by
  simp [List.get?_eq_getElem?, List.getElem?_append, h]

theorem get?_append_ge {α : Type} (l₁ l₂ : List α) (n : Nat) (h : l₁.length ≤ n) :
    (l₁ ++ l₂).get? n = l₂.get? (n - l₁.length) := by
  simp [List.get?_eq_getElem?, List.getElem?_append, Nat.not_lt.mpr h]

theorem find_sp_c201 (t : EngineState)
    (hbar : t.current_bar = 200) (hloc : t.ms.loc = 199)
    (hn : t.candles_buffer.length = 201) :
    find_structure_point t true false = 0 := by
  simp only [find_structure_point, Bool.false_eq_true, ite_false, eq_self_iff_true, ite_true,
    hloc, hbar, hn]
  rw [show max 1 (200 - 199) = 1 from rfl]
  rw [show List.range 1 = [0] from rfl]
  simp only [findHighAux]
  rw [if_pos (by decide : (0:Nat) < 201)]
  split <;> rfl

theorem find_sp_c203 (t : EngineState)
    (hbar : t.current_bar = 202) (hloc : t.ms.loc = 200)
    (hbuf : t.candles_buffer = (((List.replicate 199 (fbP 100000000) ++ [fbP0 100000000])
      ++ [c201a]) ++ [c202a]) ++ [c203a]) :
    find_structure_point t false false = 0 := by
  have hn : t.candles_buffer.length = 203 := by
    rw [hbuf]
    simp only [List.length_append, List.length_replicate, List.length_cons, List.length_nil]
  have hg202 : t.candles_buffer.getD 202 dfltBuf = c203a := by
    rw [hbuf, getD_append_ge _ _ _ _ (by
      simp only [List.length_append, List.length_replicate, List.length_cons, List.length_nil]
      omega)]
    simp only [List.length_append, List.length_replicate, List.length_cons, List.length_nil]
    rfl
  have hg201 : t.candles_buffer.getD 201 dfltBuf = c202a := by
    rw [hbuf, getD_append_lt _ _ _ _ (by
      simp only [List.length_append, List.length_replicate, List.length_cons, List.length_nil]
      omega)]
    rw [getD_append_ge _ _ _ _ (by
      simp only [List.length_append, List.length_replicate, List.length_cons, List.length_nil]
      omega)]
    simp only [List.length_append, List.length_replicate, List.length_cons, List.length_nil]
    rfl
  have hT0 : (((0:Nat) < 203) = True) := by simp
  have hT1 : (((1:Nat) < 203) = True) := by simp
  have hA : ((c203a.low < (99999999:ℚ)) = False) := by
    norm_num [c203a, c203, Candle.toBuf]
  have hB : ((c202a.low < (99999999:ℚ)) = False) := by
    norm_num [c202a, c202, Candle.toBuf]
  simp only [find_structure_point, Bool.false_eq_true, ite_false, hloc, hbar, hn]
  rw [show max 1 (202 - 200) = 2 from rfl]
  rw [show List.range 2 = [0, 1] from rfl]
  simp only [findLowAux, show (203 - 1 - 0 : Nat) = 202 from rfl,
    show (203 - 1 - 1 : Nat) = 201 from rfl, hg202, hg201, hT0, hT1, if_true, if_false, hA, hB]

theorem create_ob_c201 (t : EngineState)
    (hbar : t.current_bar = 200) (hloc : t.ms.loc = 199)
    (hbuf : t.candles_buffer = (List.replicate 199 (fbP 100000000) ++ [fbP0 100000000])
      ++ [c201a]) :
    create_order_block t false = { t with bearish_obs := obC1bear :: t.bearish_obs } := by
  have hn : t.candles_buffer.length = 201 := by
    rw [hbuf]
    simp only [List.length_append, List.length_replicate, List.length_cons, List.length_nil]
  have hget : t.candles_buffer.getD 200 dfltBuf = c201a := by
    rw [hbuf, getD_append_ge _ _ _ _ (by
      simp only [List.length_append, List.length_replicate, List.length_cons, List.length_nil]
      omega)]
    simp only [List.length_append, List.length_replicate, List.length_cons, List.length_nil]
    rfl
  simp only [create_order_block, Bool.false_eq_true, ite_false,
    find_sp_c201 t hbar hloc hn, hn, hbar]
  rw [if_neg (by decide : ¬ ((201:Nat) ≤ 201 - 0 - 1))]
  rw [show (201 - 0 - 1 : Nat) = 200 from rfl, hget]
  have hbtm : ((c201a.high - c201a.atr.getD 0 < c201a.low) = False) := by
    norm_num [c201a, c201, Candle.toBuf]
  simp only [obmode, hbtm, ite_false]
  have hdir : ((c201a.close > c201a.opn) = False) := by
    norm_num [c201a, c201, Candle.toBuf]
  simp only [hdir, ite_false]
  norm_num [c201a, c201, Candle.toBuf, obC1bear]

theorem create_ob_c203 (t : EngineState)
    (hbar : t.current_bar = 202) (hloc : t.ms.loc = 200)
    (hbuf : t.candles_buffer = (((List.replicate 199 (fbP 100000000) ++ [fbP0 100000000])
      ++ [c201a]) ++ [c202a]) ++ [c203a]) :
    create_order_block t true = { t with bullish_obs := obC1bull :: t.bullish_obs } := by
  have hn : t.candles_buffer.length = 203 := by
    rw [hbuf]
    simp only [List.length_append, List.length_replicate, List.length_cons, List.length_nil]
  have hget : t.candles_buffer.getD 202 dfltBuf = c203a := by
    rw [hbuf, getD_append_ge _ _ _ _ (by
      simp only [List.length_append, List.length_replicate, List.length_cons, List.length_nil]
      omega)]
    simp only [List.length_append, List.length_replicate, List.length_cons, List.length_nil]
    rfl
  simp only [create_order_block, eq_self_iff_true, if_true,
    find_sp_c203 t hbar hloc hbuf, hn, hbar]
  rw [if_neg (by decide : ¬ ((203:Nat) ≤ 203 - 0 - 1))]
  rw [show (203 - 0 - 1 : Nat) = 202 from rfl, hget]
  have htop : ((c203a.low + c203a.atr.getD 0 > c203a.high) = False) := by
    norm_num [c203a, c203, Candle.toBuf]
  simp only [obmode, htop, ite_false]
  have hdir : ((c203a.close > c203a.opn) = True) := by
    norm_num [c203a, c203, Candle.toBuf]
  simp only [hdir, ite_true]
  norm_num [c203a, c203, Candle.toBuf, obC1bull]

set_option maxRecDepth 8000 in
theorem pms_c201 (t : EngineState)
    (hbar : t.current_bar = 200) (hms : t.ms = msC1w)
    (hup : t.up = some 100000000) (hdn : t.dn = some 100000000)
    (hbuf : t.candles_buffer = (List.replicate 199 (fbP 100000000) ++ [fbP0 100000000])
      ++ [c201a]) :
    process_market_structure t c201 =
      { t with ms := msC1a, up := some 100000004, dn := some 100000002
               bearish_obs := obC1bear :: t.bearish_obs } := by
  simp only [process_market_structure, hup, hdn, Option.getD_some]
  have d1 : ((c201.high > (100000000:ℚ)) = True) := by norm_num [c201]
  have d2 : ((c201.low < c201.low) = False) := by norm_num
  simp only [d1, d2, ite_false, ite_true, if_false, if_true, decide_eq_true_eq, hms, msC1w]
  simp only [state1_step]
  rw [if_neg (by norm_num [buildsweep, c201] :
    ¬ (buildsweep = true ∧ c201.low ≤ (100000000:ℚ) ∧ c201.close ≥ (100000000:ℚ)))]
  rw [if_neg (by norm_num [buildsweep, c201] :
    ¬ (buildsweep = true ∧ c201.high ≥ (100000000:ℚ) ∧ c201.close ≤ (100000000:ℚ)))]
  rw [if_neg (by norm_num [c201] : ¬ (c201.close ≤ (100000000:ℚ)))]
  rw [if_pos (by norm_num [c201] : c201.close ≥ (100000000:ℚ))]
  rw [create_ob_c201
    { current_bar := t.current_bar
      ms := { zn := 0, zz := 0, bos := some 100000000, choch := some 100000000, loc := 199
              temp := 199, trend := 0, start := 1, main := 0, xloc := 199, upsweep := false
              dnsweep := false, txt := "choch" }
      bullish_obs := t.bullish_obs, bearish_obs := t.bearish_obs
      candles_buffer := t.candles_buffer, up := some c201.high, dn := some c201.low
      pivot_highs := t.pivot_highs, pivot_lows := t.pivot_lows } hbar rfl hbuf]
  norm_num [c201, msC1a, hbar]

theorem state2_bull_c202 (u : EngineState)
    (hbar : u.current_bar = 201) (hms : u.ms = msC1a)
    (hget2 : u.candles_buffer.get? (u.candles_buffer.length - 2) = some c201a) :
    state2_bull u c202 (decide (c202.low < 100000002)) = { u with ms := msC1b } := by
  simp only [state2_bull]
  rw [if_neg (show ¬ (c202.high ≥ u.ms.main) from by rw [hms]; norm_num [c202, msC1a])]
  simp only [hms, msC1a, hbar, hget2]
  rw [if_pos (show decide (c202.low < (100000002:ℚ)) = true ∧ c202.close < c202.opn ∧
      (201:Nat) > 0 from ⟨decide_eq_true (by norm_num [c202]), by norm_num [c202], by norm_num⟩)]
  rw [if_pos (by norm_num [c201a, c201, Candle.toBuf] : c201a.close < c201a.opn)]
  simp only []
  rw [if_neg (by norm_num [buildsweep, c202] :
    ¬ (buildsweep = true ∧ c202.high ≥ (100000004:ℚ) ∧ c202.close ≤ (100000004:ℚ)))]
  rw [if_neg (by norm_num [c202] : ¬ (c202.close ≥ (100000004:ℚ)))]
  simp only [state2_bull_choch]
  rw [if_neg (by norm_num [buildsweep, c202] :
    ¬ (buildsweep = true ∧ c202.low ≤ (100000000:ℚ) ∧ c202.close ≥ (100000000:ℚ)))]
  rw [if_neg (by norm_num [c202] : ¬ (c202.close ≤ (100000000:ℚ)))]
  norm_num [msC1b, msC1a]

set_option maxRecDepth 8000 in
theorem pms_c202 (t : EngineState)
    (hbar : t.current_bar = 201) (hms : t.ms = msC1a)
    (hup : t.up = some 100000004) (hdn : t.dn = some 100000002)
    (hbuf : t.candles_buffer = ((List.replicate 199 (fbP 100000000) ++ [fbP0 100000000])
      ++ [c201a]) ++ [c202a]) :
    process_market_structure t c202 =
      { t with ms := msC1b, up := some 100000002, dn := some 100000001 } := by
  have hlen : (((List.replicate 199 (fbP 100000000) ++ [fbP0 100000000]) ++ [c201a])
      ++ [c202a]).length = 202 := by
    simp only [List.length_append, List.length_replicate, List.length_cons, List.length_nil]
  have hget : (((List.replicate 199 (fbP 100000000) ++ [fbP0 100000000]) ++ [c201a])
      ++ [c202a]).get? 200 = some c201a := by
    rw [get?_append_lt _ _ _ (by
      simp only [List.length_append, List.length_replicate, List.length_cons, List.length_nil]
      omega)]
    rw [get?_append_ge _ _ _ (by
      simp only [List.length_append, List.length_replicate, List.length_cons, List.length_nil]
      omega)]
    simp only [List.length_append, List.length_replicate, List.length_cons, List.length_nil]
    rfl
  have hget2 : t.candles_buffer.get? (t.candles_buffer.length - 2) = some c201a := by
    rw [hbuf, hlen]
    rw [show (202 - 2 : Nat) = 200 from rfl]
    exact hget
  have h1 : ¬ (c202.high > (100000004:ℚ)) := by norm_num [c202]
  have h2 : c202.low < (100000002:ℚ) := by norm_num [c202]
  simp only [process_market_structure, hup, hdn, Option.getD_some, hms, msC1a, hbar]
  simp only [if_neg h1, if_pos h2]
  simp only [if_true]
  rw [if_neg (by decide : ¬ ((1:Int) = -1))]
  rw [state2_bull_c202
    { current_bar := 201
      ms := { zn := 0, zz := 0, bos := none, choch := some 100000000, loc := 200, temp := 200
              trend := 1, start := 2, main := 100000004, xloc := 200, upsweep := false
              dnsweep := false, txt := "choch" }
      bullish_obs := t.bullish_obs, bearish_obs := t.bearish_obs
      candles_buffer := t.candles_buffer, up := some c202.high, dn := some c202.low
      pivot_highs := t.pivot_highs, pivot_lows := t.pivot_lows } rfl rfl hget2]
  norm_num [c202]

theorem state2_bull_c203 (u : EngineState) (cd : Bool)
    (hbar : u.current_bar = 202) (hms : u.ms = msC1b)
    (hbuf : u.candles_buffer = (((List.replicate 199 (fbP 100000000) ++ [fbP0 100000000])
      ++ [c201a]) ++ [c202a]) ++ [c203a]) :
    state2_bull u c203 cd =
      { u with ms := msC1c, bullish_obs := obC1bull :: u.bullish_obs } := by
  simp only [state2_bull]
  rw [if_pos (show c203.high ≥ u.ms.main from by rw [hms]; norm_num [c203, msC1b, msC1a])]
  simp only [hms, msC1b, msC1a, hbar]
  rw [if_neg (by norm_num [buildsweep, c203] :
    ¬ (buildsweep = true ∧ c203.high ≥ (100000004:ℚ) ∧ c203.close ≤ (100000004:ℚ)))]
  rw [if_pos (by norm_num [c203] : c203.close ≥ (100000004:ℚ))]
  rw [create_ob_c203
    { current_bar := 202
      ms := { zn := 202, zz := 100000004, bos := some 100000004, choch := some 100000000
              loc := 200, temp := 202, trend := 1, start := 2, main := c203.high, xloc := 200
              upsweep := false, dnsweep := false, txt := "bos" }
      bullish_obs := u.bullish_obs, bearish_obs := u.bearish_obs
      candles_buffer := u.candles_buffer, up := u.up, dn := u.dn
      pivot_highs := u.pivot_highs, pivot_lows := u.pivot_lows } rfl rfl hbuf]
  simp only [state2_bull_choch]
  rw [if_neg (by norm_num [buildsweep, c203] :
    ¬ (buildsweep = true ∧ c203.low ≤ (100000000:ℚ) ∧ c203.close ≥ (100000000:ℚ)))]
  rw [if_neg (by norm_num [c203] : ¬ (c203.close ≤ (100000000:ℚ)))]
  norm_num [c203, msC1c]

set_option maxRecDepth 8000 in
theorem pms_c203 (t : EngineState)
    (hbar : t.current_bar = 202) (hms : t.ms = msC1b)
    (hup : t.up = some 100000002) (hdn : t.dn = some 100000001)
    (hbuf : t.candles_buffer = (((List.replicate 199 (fbP 100000000) ++ [fbP0 100000000])
      ++ [c201a]) ++ [c202a]) ++ [c203a]) :
    process_market_structure t c203 =
      { t with ms := msC1c, up := some 100000005, dn := some 100000003
               bullish_obs := obC1bull :: t.bullish_obs } := by
  have h1 : c203.high > (100000002:ℚ) := by norm_num [c203]
  have h2 : ¬ (c203.low < c203.low) := by norm_num
  simp only [process_market_structure, hup, hdn, Option.getD_some, hms, msC1b, msC1a, hbar]
  simp only [if_pos h1, if_neg h2]
  simp only [if_true]
  rw [if_neg (by decide : ¬ ((1:Int) = -1))]
  rw [state2_bull_c203
    { current_bar := 202
      ms := { zn := 0, zz := 0, bos := some 100000004, choch := some 100000000, loc := 200
              temp := 200, trend := 1, start := 2, main := 100000004, xloc := 200
              upsweep := false, dnsweep := false, txt := "choch" }
      bullish_obs := t.bullish_obs, bearish_obs := t.bearish_obs
      candles_buffer := t.candles_buffer, up := some c203.high, dn := some c203.low
      pivot_highs := t.pivot_highs, pivot_lows := t.pivot_lows } _ rfl rfl hbuf]
  norm_num [c203]

theorem miti_ne_wick : (MitiRule.closeRule = MitiRule.wickRule) = False := by
  simp

theorem miti_ne_avg : (MitiRule.closeRule = MitiRule.avgRule) = False := by
  simp

theorem mitigation_c201 (t : EngineState)
    (hbl : t.bullish_obs = []) (hbe : t.bearish_obs = [obC1bear]) :
    check_mitigation t c201 = t := by
  have hmb : mitigate_bearish t.current_bar c201 obC1bear = obC1bear := by
    simp only [mitigate_bearish, obC1bear, obmiti]
    norm_num [c201, miti_ne_wick, miti_ne_avg]
  simp only [check_mitigation, hbl, hbe, List.filterMap_nil, List.filterMap_cons, hmb]
  rw [if_neg (by norm_num [obC1bear] : ¬ (obC1bear.invalidated = true))]
  rw [if_neg (by norm_num [obC1bear] : ¬ (obC1bear.invalidated = true))]
  show ({ t with bullish_obs := [], bearish_obs := [obC1bear] } : EngineState) = t
  rw [← hbe, ← hbl]

theorem mitigation_c202 (t : EngineState)
    (hbl : t.bullish_obs = []) (hbe : t.bearish_obs = [obC1bear]) :
    check_mitigation t c202 = t := by
  have hmb : mitigate_bearish t.current_bar c202 obC1bear = obC1bear := by
    simp only [mitigate_bearish, obC1bear, obmiti]
    norm_num [c202, miti_ne_wick, miti_ne_avg]
  simp only [check_mitigation, hbl, hbe, List.filterMap_nil, List.filterMap_cons, hmb]
  rw [if_neg (by norm_num [obC1bear] : ¬ (obC1bear.invalidated = true))]
  rw [if_neg (by norm_num [obC1bear] : ¬ (obC1bear.invalidated = true))]
  show ({ t with bullish_obs := [], bearish_obs := [obC1bear] } : EngineState) = t
  rw [← hbe, ← hbl]

theorem mitigation_c203 (t : EngineState)
    (hbar : t.current_bar = 202)
    (hbl : t.bullish_obs = [obC1bull]) (hbe : t.bearish_obs = [obC1bear]) :
    check_mitigation t c203 = { t with bearish_obs := [obC1bearBB] } := by
  have hmbull : mitigate_bullish t.current_bar c203 obC1bull = obC1bull := by
    simp only [mitigate_bullish, obC1bull, obmiti]
    norm_num [c203, miti_ne_wick, miti_ne_avg]
  have hmbear : mitigate_bearish t.current_bar c203 obC1bear = obC1bearBB := by
    rw [hbar]
    simp only [mitigate_bearish, obC1bear, obC1bearBB, obmiti]
    norm_num [c203, miti_ne_wick, miti_ne_avg]
  simp only [check_mitigation, hbl, hbe, List.filterMap_nil, List.filterMap_cons, hmbull, hmbear]
  rw [if_neg (by norm_num [obC1bull] : ¬ (obC1bull.invalidated = true))]
  rw [if_neg (by norm_num [obC1bull] : ¬ (obC1bull.invalidated = true))]
  rw [if_neg (by norm_num [obC1bear] : ¬ (obC1bear.invalidated = true))]
  rw [if_neg (by norm_num [obC1bearBB, obC1bear] : ¬ (obC1bearBB.invalidated = true))]

set_option maxRecDepth 8000 in
theorem step_c201 (s : EngineState)
    (hbar : s.current_bar = 200)
    (hbuf : s.candles_buffer = List.replicate 199 (fbP 100000000) ++ [fbP0 100000000])
    (hms : s.ms = msC1w) (hup : s.up = some 100000000) (hdn : s.dn = some 100000000)
    (hbl : s.bullish_obs = []) (hbe : s.bearish_obs = []) :
    process_candle s c201 =
      { s with
        current_bar := 201
        candles_buffer := (List.replicate 199 (fbP 100000000) ++ [fbP0 100000000]) ++ [c201a]
        ms := msC1a
        bearish_obs := [obC1bear]
        up := some 100000004, dn := some 100000002 } := by
  have hlen1 : ((List.replicate 199 (fbP 100000000) ++ [fbP0 100000000])
      ++ [c201.toBuf]).length = 201 := by
    simp only [List.length_append, List.length_replicate, List.length_cons, List.length_nil]
  simp only [process_candle, hbuf, hlen1]
  have hc1 : ¬ ((201:Nat) > maxBufferSize) := by decide
  have hc2 : ¬ ((201:Nat) < 200) := by decide
  rw [if_neg hc1]
  simp only [hlen1]
  rw [if_neg hc2, calcATR_c201]
  rw [List.dropLast_concat]
  simp only [Option.some.injEq]
  have hda : ({ c201.toBuf with atr := some (4/199) } : BufCandle) = c201a := rfl
  rw [hda]
  have hdp : detect_pivots { s with candles_buffer :=
      (List.replicate 199 (fbP 100000000) ++ [fbP0 100000000]) ++ [c201a] } =
      { s with candles_buffer :=
        (List.replicate 199 (fbP 100000000) ++ [fbP0 100000000]) ++ [c201a] } :=
    detect_pivots_flat_tail _ 100000000 [fbP0 100000000, c201a] (by rw [List.append_assoc]; rfl)
      (by simp) (by simp)
  rw [hdp]
  rw [pms_c201 { s with candles_buffer :=
    (List.replicate 199 (fbP 100000000) ++ [fbP0 100000000]) ++ [c201a] } hbar hms hup hdn rfl]
  set R : EngineState := { s with candles_buffer := (List.replicate 199 (fbP 100000000) ++ [fbP0 100000000]) ++ [c201a], ms := msC1a, up := some 100000004, dn := some 100000002, bearish_obs := obC1bear :: s.bearish_obs } with hR
  have hm : check_mitigation R c201 = R :=
    mitigation_c201 R (by rw [hR]; show s.bullish_obs = []; exact hbl)
      (by rw [hR]; show obC1bear :: s.bearish_obs = [obC1bear]; rw [hbe])
  rw [hm, hR]
  simp only [hbar, hbe]

set_option maxRecDepth 8000 in
theorem step_c202 (s : EngineState)
    (hbar : s.current_bar = 201)
    (hbuf : s.candles_buffer = (List.replicate 199 (fbP 100000000) ++ [fbP0 100000000])
      ++ [c201a])
    (hms : s.ms = msC1a) (hup : s.up = some 100000004) (hdn : s.dn = some 100000002)
    (hbl : s.bullish_obs = []) (hbe : s.bearish_obs = [obC1bear]) :
    process_candle s c202 =
      { s with
        current_bar := 202
        candles_buffer := ((List.replicate 199 (fbP 100000000) ++ [fbP0 100000000])
          ++ [c201a]) ++ [c202a]
        ms := msC1b
        up := some 100000002, dn := some 100000001 } := by
  have hlen1 : (((List.replicate 199 (fbP 100000000) ++ [fbP0 100000000]) ++ [c201a])
      ++ [c202.toBuf]).length = 202 := by
    simp only [List.length_append, List.length_replicate, List.length_cons, List.length_nil]
  simp only [process_candle, hbuf, hlen1]
  have hc1 : ¬ ((202:Nat) > maxBufferSize) := by decide
  have hc2 : ¬ ((202:Nat) < 200) := by decide
  rw [if_neg hc1]
  simp only [hlen1]
  rw [if_neg hc2, calcATR_c202]
  rw [List.dropLast_concat]
  simp only [Option.some.injEq]
  have hda : ({ c202.toBuf with atr := some (5/199) } : BufCandle) = c202a := rfl
  rw [hda]
  have hdp : detect_pivots { s with candles_buffer :=
      ((List.replicate 199 (fbP 100000000) ++ [fbP0 100000000]) ++ [c201a]) ++ [c202a] } =
      { s with candles_buffer :=
        ((List.replicate 199 (fbP 100000000) ++ [fbP0 100000000]) ++ [c201a]) ++ [c202a] } :=
    detect_pivots_flat_tail _ 100000000 [fbP0 100000000, c201a, c202a]
      (by simp only [List.append_assoc]; rfl) (by simp) (by simp)
  rw [hdp]
  rw [pms_c202 { s with candles_buffer :=
    ((List.replicate 199 (fbP 100000000) ++ [fbP0 100000000]) ++ [c201a]) ++ [c202a] }
    hbar hms hup hdn rfl]
  set R : EngineState := { s with candles_buffer := ((List.replicate 199 (fbP 100000000) ++ [fbP0 100000000]) ++ [c201a]) ++ [c202a], ms := msC1b, up := some 100000002, dn := some 100000001 } with hR
  have hm : check_mitigation R c202 = R :=
    mitigation_c202 R (by rw [hR]; show s.bullish_obs = []; exact hbl)
      (by rw [hR]; show s.bearish_obs = [obC1bear]; exact hbe)
  rw [hm, hR]
  simp only [hbar]

set_option maxRecDepth 8000 in
theorem step_c203 (s : EngineState)
    (hbar : s.current_bar = 202)
    (hbuf : s.candles_buffer = ((List.replicate 199 (fbP 100000000) ++ [fbP0 100000000])
      ++ [c201a]) ++ [c202a])
    (hms : s.ms = msC1b) (hup : s.up = some 100000002) (hdn : s.dn = some 100000001)
    (hbl : s.bullish_obs = []) (hbe : s.bearish_obs = [obC1bear]) :
    process_candle s c203 =
      { s with
        current_bar := 203
        candles_buffer := (((List.replicate 199 (fbP 100000000) ++ [fbP0 100000000])
          ++ [c201a]) ++ [c202a]) ++ [c203a]
        ms := msC1c
        bullish_obs := [obC1bull]
        bearish_obs := [obC1bearBB]
        up := some 100000005, dn := some 100000003 } := by
  have hlen1 : ((((List.replicate 199 (fbP 100000000) ++ [fbP0 100000000]) ++ [c201a])
      ++ [c202a]) ++ [c203.toBuf]).length = 203 := by
    simp only [List.length_append, List.length_replicate, List.length_cons, List.length_nil]
  simp only [process_candle, hbuf, hlen1]
  have hc1 : ¬ ((203:Nat) > maxBufferSize) := by decide
  have hc2 : ¬ ((203:Nat) < 200) := by decide
  rw [if_neg hc1]
  simp only [hlen1]
  rw [if_neg hc2, calcATR_c203]
  rw [List.dropLast_concat]
  simp only [Option.some.injEq]
  have hda : ({ c203.toBuf with atr := some (9/199) } : BufCandle) = c203a := rfl
  rw [hda]
  have hdp : detect_pivots { s with candles_buffer :=
      (((List.replicate 199 (fbP 100000000) ++ [fbP0 100000000]) ++ [c201a]) ++ [c202a])
        ++ [c203a] } =
      { s with candles_buffer :=
        (((List.replicate 199 (fbP 100000000) ++ [fbP0 100000000]) ++ [c201a]) ++ [c202a])
          ++ [c203a] } :=
    detect_pivots_flat_tail _ 100000000 [fbP0 100000000, c201a, c202a, c203a]
      (by simp only [List.append_assoc]; rfl) (by simp) (by simp)
  rw [hdp]
  rw [pms_c203 { s with candles_buffer :=
    (((List.replicate 199 (fbP 100000000) ++ [fbP0 100000000]) ++ [c201a]) ++ [c202a])
      ++ [c203a] } hbar hms hup hdn rfl]
  set R : EngineState := { s with candles_buffer := (((List.replicate 199 (fbP 100000000) ++ [fbP0 100000000]) ++ [c201a]) ++ [c202a]) ++ [c203a], ms := msC1c, up := some 100000005, dn := some 100000003, bullish_obs := obC1bull :: s.bullish_obs } with hR
  have hm : check_mitigation R c203 = { R with bearish_obs := [obC1bearBB] } :=
    mitigation_c203 R (by rw [hR]; show s.current_bar = 202; exact hbar)
      (by rw [hR]; show obC1bull :: s.bullish_obs = [obC1bull]; rw [hbl])
      (by rw [hR]; show s.bearish_obs = [obC1bear]; exact hbe)
  rw [hm, hR]
  simp only [hbar, hbl]

theorem T202_len : T202.candles_buffer.length = 203 := by
  simp only [T202, List.length_append, List.length_replicate, List.length_cons,
    List.length_nil]

theorem T202_g202 : T202.candles_buffer.getD 202 dfltBuf = c203a := by
  rw [show T202.candles_buffer = (((List.replicate 199 (fbP 100000000)
    ++ [fbP0 100000000]) ++ [c201a]) ++ [c202a]) ++ [c203a] from rfl]
  rw [getD_append_ge _ _ _ _ (by
    simp only [List.length_append, List.length_replicate, List.length_cons, List.length_nil]
    omega)]
  simp only [List.length_append, List.length_replicate, List.length_cons, List.length_nil]
  rfl

theorem T202_g201 : T202.candles_buffer.getD 201 dfltBuf = c202a := by
  rw [show T202.candles_buffer = (((List.replicate 199 (fbP 100000000)
    ++ [fbP0 100000000]) ++ [c201a]) ++ [c202a]) ++ [c203a] from rfl]
  rw [getD_append_lt _ _ _ _ (by
    simp only [List.length_append, List.length_replicate, List.length_cons, List.length_nil]
    omega)]
  rw [getD_append_ge _ _ _ _ (by
    simp only [List.length_append, List.length_replicate, List.length_cons, List.length_nil]
    omega)]
  simp only [List.length_append, List.length_replicate, List.length_cons, List.length_nil]
  rfl

theorem spec_sp_T202 : spec_structure_offset T202 false = 1 := by
  have hT0 : (((0:Nat) < 203) = True) := by simp
  have hT1 : (((1:Nat) < 203) = True) := by simp
  have hAB : ((c202a.low < c203a.low) = True) := by
    norm_num [c202a, c202, c203a, c203, Candle.toBuf]
  simp only [spec_structure_offset, Bool.false_eq_true, if_false, ite_false, T202_len]
  rw [show T202.ms.loc = 200 from rfl, show T202.current_bar = 202 from rfl]
  rw [show max 1 (202 - 200) = 2 from rfl]
  rw [show List.range 2 = [0, 1] from rfl]
  simp only [specLowScan, show (203 - 1 - 0 : Nat) = 202 from rfl,
    show (203 - 1 - 1 : Nat) = 201 from rfl, T202_g202, T202_g201, hT0, hT1, if_true, hAB]
  rw [if_neg (by norm_num [c202a, c202, c203a, c203, Candle.toBuf] :
    ¬ (c203a.low < c202a.low))]
  rw [if_pos (by decide : (0:Nat) < 1)]

set_option maxRecDepth 8000 in
/-- C1: counterexample.  With all prices at or above the source's 99999999.0
sentinel (a 10^8-priced instrument), the engine's backward scan never
updates its running minimum, so the bullish OB created by the BOS break at
bar 202 takes its coordinates from the break candle itself (btm =
100000003) instead of the bar with the lowest low of the search window
(bar 201, low = 100000001) that the spec's algorithm selects.  `T202` is
the exact engine state at the moment of creation, reached by the run. -/
theorem C1_counterexample :
    ((runEngine c1Candles).bullish_obs.map fun ob => ob.btm) = [(100000003 : ℚ)] ∧
    ((create_order_block T202 true).bullish_obs.map fun ob => ob.btm) = [(100000003 : ℚ)] ∧
    ((spec_create_order_block T202 true).bullish_obs.map fun ob => ob.btm)
      = [(100000001 : ℚ)] ∧
    (100000003 : ℚ) ≠ 100000001 := by
  refine ⟨?_, ?_, ?_, by norm_num⟩
  · have hsplit : c1Candles = (List.replicate 199 (flatC 100000000)) ++
        ([flatC 100000000] ++ [c201, c202, c203]) := by
      rw [c1Candles, ← replicate_append_one 199 (flatC 100000000), List.append_assoc]
    rw [runEngine, hsplit, List.foldl_append]
    rw [foldl_short (List.replicate 199 (flatC 100000000)) engineInit (by decide)]
    simp only [engineInit, List.nil_append, List.map_replicate, List.length_replicate,
      Nat.zero_add]
    rw [show (flatC 100000000).toBuf = fbP 100000000 from rfl]
    simp only [List.cons_append, List.nil_append, List.foldl_cons, List.foldl_nil]
    rw [step_state0 100000000
      { current_bar := 199, ms := {}, bullish_obs := [], bearish_obs := [], candles_buffer := List.replicate 199 (fbP 100000000), up := none, dn := none, pivot_highs := [], pivot_lows := [] }
      rfl rfl rfl rfl rfl rfl rfl]
    rw [step_c201
      { current_bar := 200, ms := { zn := 0, zz := 0, bos := some 100000000, choch := some 100000000, loc := 199, temp := 199, trend := 0, start := 1, main := 0, xloc := 199, upsweep := false, dnsweep := false, txt := "" }, bullish_obs := [], bearish_obs := [], candles_buffer := List.replicate 199 (fbP 100000000) ++ [fbP0 100000000], up := some 100000000, dn := some 100000000, pivot_highs := [], pivot_lows := [] }
      rfl rfl rfl rfl rfl rfl rfl]
    rw [step_c202
      { current_bar := 201, ms := msC1a, bullish_obs := [], bearish_obs := [obC1bear], candles_buffer := (List.replicate 199 (fbP 100000000) ++ [fbP0 100000000]) ++ [c201a], up := some 100000004, dn := some 100000002, pivot_highs := [], pivot_lows := [] }
      rfl rfl rfl rfl rfl rfl rfl]
    rw [step_c203
      { current_bar := 202, ms := msC1b, bullish_obs := [], bearish_obs := [obC1bear], candles_buffer := ((List.replicate 199 (fbP 100000000) ++ [fbP0 100000000]) ++ [c201a]) ++ [c202a], up := some 100000002, dn := some 100000001, pivot_highs := [], pivot_lows := [] }
      rfl rfl rfl rfl rfl rfl rfl]
    norm_num [obC1bull]
  · rw [create_ob_c203 T202 rfl rfl rfl]
    rw [show T202.bullish_obs = [] from rfl]
    norm_num [obC1bull]
  · simp only [spec_create_order_block, T202_len]
    rw [if_neg (by decide : ¬ ((203:Nat) = 0))]
    simp only [eq_self_iff_true, if_true, spec_sp_T202]
    rw [show (203 - 1 - 1 : Nat) = 201 from rfl, T202_g201]
    rw [show T202.bullish_obs = [] from rfl]
    norm_num [c202a, c202, Candle.toBuf]

theorem create_buf (s : EngineState) (b : Bool) :
    (create_order_block s b).candles_buffer = s.candles_buffer := by
  simp only [create_order_block]
  repeat' split
  all_goals rfl

theorem s1_buf (s : EngineState) (c : Candle) :
    (state1_step s c).candles_buffer = s.candles_buffer := by
  simp only [state1_step]
  repeat' split
  all_goals simp [create_buf]

theorem s2bc_buf (s : EngineState) (c : Candle) :
    (state2_bear_choch s c).candles_buffer = s.candles_buffer := by
  simp only [state2_bear_choch]
  repeat' split
  all_goals simp [create_buf]

theorem s2uc_buf (s : EngineState) (c : Candle) :
    (state2_bull_choch s c).candles_buffer = s.candles_buffer := by
  simp only [state2_bull_choch]
  repeat' split
  all_goals simp [create_buf]

theorem s2b_buf (s : EngineState) (c : Candle) (cu : Bool) :
    (state2_bear s c cu).candles_buffer = s.candles_buffer := by
  simp only [state2_bear]
  repeat' split
  all_goals simp [s2bc_buf, create_buf]

theorem s2u_buf (s : EngineState) (c : Candle) (cd : Bool) :
    (state2_bull s c cd).candles_buffer = s.candles_buffer := by
  simp only [state2_bull]
  repeat' split
  all_goals simp [s2uc_buf, create_buf]

theorem s0_buf (s : EngineState) (c : Candle) :
    (state0_step s c).candles_buffer = s.candles_buffer := rfl

theorem pms_buf (s : EngineState) (c : Candle) :
    (process_market_structure s c).candles_buffer = s.candles_buffer := by
  simp only [process_market_structure]
  repeat' split
  all_goals simp [s0_buf, s1_buf, s2b_buf, s2u_buf]

theorem dp_buf (s : EngineState) :
    (detect_pivots s).candles_buffer = s.candles_buffer := by
  simp only [detect_pivots]
  repeat' split
  all_goals rfl

theorem mit_buf (s : EngineState) (c : Candle) :
    (check_mitigation s c).candles_buffer = s.candles_buffer := rfl

theorem process_candle_len (s : EngineState) (c : Candle)
    (h : s.candles_buffer.length ≤ 300) :
    (process_candle s c).candles_buffer.length
      = min (s.candles_buffer.length + 1) 300 := by
  simp only [process_candle, maxBufferSize]
  split
  · split
    · simp only [List.length_drop, List.length_append, List.length_cons, List.length_nil] at *
      omega
    · split
      · simp only [List.length_drop, List.length_append, List.length_cons,
          List.length_nil] at *
        omega
      · rw [mit_buf, pms_buf, dp_buf]
        simp only [List.length_append, List.length_dropLast, List.length_drop,
          List.length_cons, List.length_nil] at *
        omega
  · split
    · simp only [List.length_append, List.length_cons, List.length_nil] at *
      omega
    · split
      · simp only [List.length_append, List.length_cons, List.length_nil] at *
        omega
      · rw [mit_buf, pms_buf, dp_buf]
        simp only [List.length_append, List.length_dropLast, List.length_cons,
          List.length_nil] at *
        omega

theorem runEngine_len_aux (candles : List Candle) : ∀ (s : EngineState),
    s.candles_buffer.length ≤ 300 →
    (candles.foldl process_candle s).candles_buffer.length
      = min (s.candles_buffer.length + candles.length) 300 := by
  induction candles with
  | nil =>
      intro s h
      simp only [List.foldl_nil, List.length_nil, Nat.add_zero]
      omega
  | cons c rest ih =>
      intro s h
      simp only [List.foldl_cons, List.length_cons]
      have hstep := process_candle_len s c h
      have hle : (process_candle s c).candles_buffer.length ≤ 300 := by omega
      rw [ih _ hle, hstep]
      omega

theorem runEngine_len (candles : List Candle) :
    (runEngine candles).candles_buffer.length = min candles.length 300 := by
  rw [runEngine, runEngine_len_aux candles engineInit (by decide)]
  show (0 + candles.length) ⊓ 300 = candles.length ⊓ 300
  omega

/-- C2: refuted by the code (code bug per the spec, which explicitly
mandates unbounded retention and calls the 300-entry trim a defect of the
older variant).  `process_candle` drops the oldest entry once the buffer
exceeds `max_buffer_size = 300`: after 301 candles the buffer holds only
300 of them, not all 301.  (In general the buffer length is
`min N 300`, by `runEngine_len`.) -/
theorem C2_counterexample :
    (runEngine (List.replicate 301 (flatC 100))).candles_buffer.length = 300 ∧
    (300 : Nat) ≠ 301 := by
  constructor
  · rw [runEngine_len, List.length_replicate]
    decide
  · decide

theorem mitig_bull_rank (bar : Nat) (candle : Candle) (ob : OrderBlock) :
    statusRank ob ≤ statusRank (mitigate_bullish bar candle ob) ∧
    statusRank (mitigate_bullish bar candle ob) ≤ statusRank ob + 1 := by
  simp only [mitigate_bullish, statusRank]
  repeat' split
  all_goals simp_all

theorem mitig_bear_rank (bar : Nat) (candle : Candle) (ob : OrderBlock) :
    statusRank ob ≤ statusRank (mitigate_bearish bar candle ob) ∧
    statusRank (mitigate_bearish bar candle ob) ≤ statusRank ob + 1 := by
  simp only [mitigate_bearish, statusRank]
  repeat' split
  all_goals simp_all

theorem mitig_inv_fix (bar : Nat) (candle : Candle) (ob : OrderBlock)
    (h : ob.invalidated = true) :
    mitigate_bullish bar candle ob = ob ∧ mitigate_bearish bar candle ob = ob := by
  constructor <;> simp [mitigate_bullish, mitigate_bearish, h]

theorem create_top_ge_btm (s : EngineState) (b : Bool)
    (hbuf : ∀ c ∈ s.candles_buffer, c.low ≤ c.high ∧ 0 ≤ c.atr.getD 0) :
    (∀ ob2 ∈ (create_order_block s b).bullish_obs,
      ob2 ∈ s.bullish_obs ∨ ob2.btm ≤ ob2.top) ∧
    (∀ ob2 ∈ (create_order_block s b).bearish_obs,
      ob2 ∈ s.bearish_obs ∨ ob2.btm ≤ ob2.top) := by
  cases b with
  | false =>
      simp only [create_order_block, Bool.false_eq_true, if_false, ite_false]
      by_cases hg : s.candles_buffer.length ≤
          s.candles_buffer.length - find_structure_point s true false - 1
      · rw [if_pos hg]
        exact ⟨fun ob2 h2 => Or.inl h2, fun ob2 h2 => Or.inl h2⟩
      · rw [if_neg hg]
        have hn : 0 < s.candles_buffer.length := by omega
        have hmem : s.candles_buffer.getD
            (s.candles_buffer.length - find_structure_point s true false - 1) dfltBuf ∈
            s.candles_buffer := by
          rw [List.getD_eq_getElem s.candles_buffer dfltBuf (by omega)]
          exact List.getElem_mem _
        obtain ⟨hlh, hatr⟩ := hbuf _ hmem
        refine ⟨fun ob2 h2 => Or.inl h2, fun ob2 h2 => ?_⟩
        simp only [List.mem_cons] at h2
        rcases h2 with rfl | h2
        · refine Or.inr ?_
          simp only [obmode]
          split <;> linarith
        · exact Or.inl h2
  | true =>
      simp only [create_order_block, eq_self_iff_true, if_true, ite_true]
      by_cases hg : s.candles_buffer.length ≤
          s.candles_buffer.length - find_structure_point s false false - 1
      · rw [if_pos hg]
        exact ⟨fun ob2 h2 => Or.inl h2, fun ob2 h2 => Or.inl h2⟩
      · rw [if_neg hg]
        have hn : 0 < s.candles_buffer.length := by omega
        have hmem : s.candles_buffer.getD
            (s.candles_buffer.length - find_structure_point s false false - 1) dfltBuf ∈
            s.candles_buffer := by
          rw [List.getD_eq_getElem s.candles_buffer dfltBuf (by omega)]
          exact List.getElem_mem _
        obtain ⟨hlh, hatr⟩ := hbuf _ hmem
        refine ⟨fun ob2 h2 => ?_, fun ob2 h2 => Or.inl h2⟩
        simp only [List.mem_cons] at h2
        rcases h2 with rfl | h2
        · refine Or.inr ?_
          simp only [obmode]
          split <;> linarith
        · exact Or.inl h2

/-- C3: amended.  The OB status (`fresh`, `breaker` via `isbb`,
`invalidated`) still moves only forward and one step per candle at most,
and an invalidated OB is never changed again; a newly created OB always
satisfies `btm ≤ top` given sane buffer candles (`low ≤ high`, `atr ≥ 0`),
but the strict `top > btm` of the original claim fails: a doji origin
candle yields `top = btm` (see the counterexample). -/
theorem C3_amended (bar : Nat) (candle : Candle) (ob : OrderBlock)
    (s : EngineState) (b : Bool)
    (hbuf : ∀ c ∈ s.candles_buffer, c.low ≤ c.high ∧ 0 ≤ c.atr.getD 0) :
    (statusRank ob ≤ statusRank (mitigate_bullish bar candle ob) ∧
     statusRank (mitigate_bullish bar candle ob) ≤ statusRank ob + 1) ∧
    (statusRank ob ≤ statusRank (mitigate_bearish bar candle ob) ∧
     statusRank (mitigate_bearish bar candle ob) ≤ statusRank ob + 1) ∧
    (ob.invalidated = true →
      mitigate_bullish bar candle ob = ob ∧ mitigate_bearish bar candle ob = ob) ∧
    (∀ ob2 ∈ (create_order_block s b).bullish_obs,
      ob2 ∈ s.bullish_obs ∨ ob2.btm ≤ ob2.top) ∧
    (∀ ob2 ∈ (create_order_block s b).bearish_obs,
      ob2 ∈ s.bearish_obs ∨ ob2.btm ≤ ob2.top) :=
  ⟨mitig_bull_rank bar candle ob, mitig_bear_rank bar candle ob,
   mitig_inv_fix bar candle ob,
   (create_top_ge_btm s b hbuf).1, (create_top_ge_btm s b hbuf).2⟩

/-- Witness for `C3_amended` at a concrete state and order block. -/
theorem C3_amended_witness :
    (∀ c ∈ W1.candles_buffer, c.low ≤ c.high ∧ 0 ≤ c.atr.getD 0) ∧
    ((statusRank obC3 ≤ statusRank (mitigate_bullish 7 doji99 obC3) ∧
      statusRank (mitigate_bullish 7 doji99 obC3) ≤ statusRank obC3 + 1) ∧
     (statusRank obC3 ≤ statusRank (mitigate_bearish 7 doji99 obC3) ∧
      statusRank (mitigate_bearish 7 doji99 obC3) ≤ statusRank obC3 + 1) ∧
     (obC3.invalidated = true →
       mitigate_bullish 7 doji99 obC3 = obC3 ∧ mitigate_bearish 7 doji99 obC3 = obC3) ∧
     (∀ ob2 ∈ (create_order_block W1 true).bullish_obs,
       ob2 ∈ W1.bullish_obs ∨ ob2.btm ≤ ob2.top) ∧
     (∀ ob2 ∈ (create_order_block W1 true).bearish_obs,
       ob2 ∈ W1.bearish_obs ∨ ob2.btm ≤ ob2.top)) := by
  have hbuf : ∀ c ∈ W1.candles_buffer, c.low ≤ c.high ∧ 0 ≤ c.atr.getD 0 := by
    intro c hc
    simp only [W1, List.mem_singleton] at hc
    rw [hc]
    norm_num [fbP, flatC, Candle.toBuf]
  exact ⟨hbuf, C3_amended 7 doji99 obC3 W1 true hbuf⟩

/-- C4: counterexample.  A well-formed tick with Unix timestamp 0 (the
epoch, a perfectly valid bucket time mapping to bucket 0) is dropped by
the truthiness guard `if not all([symbol, price is not None, timestamp])`:
no candle is created for it, although the claim mandates that a tick with
no open candle creates one. -/
theorem C4_counterexample :
    candle_start_time 900 0 = 0 ∧
    cb_process_tick 900 cbInit
      { symbol := some "BTCUSDT", price := some 100, timestamp := some 0 } = cbInit ∧
    cbInit.current = none := by
  refine ⟨rfl, ?_, rfl⟩
  rw [cb_process_tick, if_neg]
  intro h
  exact absurd h.2.2 (by decide)

/-- C4: amended.  For ticks that survive the truthiness guard (nonempty
symbol, price present, timestamp nonzero), the aggregator follows the
claimed contract: bucket `b = (t // T) * T` (`candle_start_time`); with no
open candle a fresh one seeded with `p` is created (and then updated once,
so its tick count is 1); in the same bucket the candle is updated by
max/min/close and the tick count grows by one; on a bucket change the open
candle is finalized and appended to the completed history exactly once,
the completion counter grows by one, and a fresh candle for the new bucket
is created. -/
theorem C4_amended (T : Int) (s : CBState) (sym : String) (p : ℚ) (t : Int)
    (hsym : sym ≠ "") (ht : t ≠ 0) :
    (s.current = none →
      cb_process_tick T s { symbol := some sym, price := some p, timestamp := some t } =
        { s with current := some (update_candle (create_new_candle T t p) p)
                 ticks_processed := s.ticks_processed + 1 }) ∧
    (∀ c, s.current = some c → candle_start_time T t = c.candle_start →
      cb_process_tick T s { symbol := some sym, price := some p, timestamp := some t } =
        { s with current := some (update_candle c p)
                 ticks_processed := s.ticks_processed + 1 }) ∧
    (∀ c, s.current = some c → candle_start_time T t ≠ c.candle_start →
      cb_process_tick T s { symbol := some sym, price := some p, timestamp := some t } =
        { s with current := some (update_candle (create_new_candle T t p) p)
                 completed := s.completed ++ [finalize_candle c]
                 candles_completed := s.candles_completed + 1
                 ticks_processed := s.ticks_processed + 1 }) := by
  have hguard : truthyStr (some sym) = true ∧ (some p : Option ℚ) ≠ none ∧
      truthyInt (some t) = true :=
    ⟨by simp [truthyStr, hsym], by simp, by simp [truthyInt, ht]⟩
  refine ⟨?_, ?_, ?_⟩
  · intro hnone
    rw [cb_process_tick, if_pos hguard]
    simp only [is_new_candle, hnone, if_true]
  · intro c hc hsame
    rw [cb_process_tick, if_pos hguard]
    simp only [is_new_candle, hc]
    rw [if_neg (by simp [hsame])]
    simp only [hc]
  · intro c hc hdiff
    rw [cb_process_tick, if_pos hguard]
    simp only [is_new_candle, hc]
    rw [if_pos (by simp [hdiff])]

/-- Witness for `C4_amended`: a fresh builder, T = 900s, a first tick. -/
theorem C4_amended_witness :
    (("BTCUSDT":String) ≠ "") ∧ ((905:Int) ≠ 0) ∧ cbInit.current = none ∧
    cb_process_tick 900 cbInit
        { symbol := some "BTCUSDT", price := some 100, timestamp := some 905 } =
      { cbInit with current := some (update_candle (create_new_candle 900 905 100) 100)
                    ticks_processed := cbInit.ticks_processed + 1 } :=
  ⟨by decide, by decide, rfl,
    (C4_amended 900 cbInit "BTCUSDT" 100 905 (by decide) (by decide)).1 rfl⟩

/-- C10: counterexample.  A tick with a negative price is NOT dropped: it
passes the guard (which only checks `price is not None`), creates a candle
at price -1 and bumps the tick counter, contradicting the claim that
non-positive-price ticks are logged and dropped with state unchanged. -/
theorem C10_counterexample :
    cb_process_tick 900 cbInit
        { symbol := some "BTCUSDT", price := some (-1), timestamp := some 905 } =
      { cbInit with current := some (update_candle (create_new_candle 900 905 (-1)) (-1))
                    ticks_processed := 1 } ∧
    ((-1 : ℚ) ≤ 0) ∧
    { cbInit with current := some (update_candle (create_new_candle 900 905 (-1)) (-1))
                  ticks_processed := 1 } ≠ cbInit := by
  refine ⟨?_, by norm_num, ?_⟩
  swap
  · intro h
    have h2 := congrArg CBState.ticks_processed h
    simp [cbInit] at h2
  rw [cb_process_tick, if_pos ⟨by simp [truthyStr], by simp, by simp [truthyInt]⟩]
  simp only [is_new_candle, if_true]
  rfl

/-- C10: amended.  The aggregator's actual drop criterion is Python
falsiness of a field — missing or empty symbol, missing price, missing or
zero timestamp — and a dropped tick leaves the whole state (open candle
and history) unchanged; every accepted tick (whatever its price, including
zero or negative) bumps `ticks_processed`.  The never-fails part holds:
`process_tick` is wrapped in try/except and the embedding is a total
function. -/
theorem C10_amended (T : Int) (s : CBState) (tick : Tick) :
    (¬ (truthyStr tick.symbol = true ∧ tick.price ≠ none ∧ truthyInt tick.timestamp = true) →
      cb_process_tick T s tick = s) ∧
    ((truthyStr tick.symbol = true ∧ tick.price ≠ none ∧ truthyInt tick.timestamp = true) →
      (cb_process_tick T s tick).ticks_processed = s.ticks_processed + 1) := by
  constructor
  · intro h
    rw [cb_process_tick, if_neg h]
  · intro h
    obtain ⟨h1, h2, h3⟩ := h
    rcases hp : tick.price with _ | p
    · exact absurd hp h2
    · rcases ht : tick.timestamp with _ | t
      · rw [ht] at h3; exact absurd h3 (by simp [truthyInt])
      · rw [cb_process_tick, if_pos ⟨h1, h2, h3⟩, hp, ht]
        simp only []
        repeat' split
        all_goals rfl

/-- Witness for `C10_amended`: a malformed tick (timestamp 0) is dropped;
an accepted zero-price tick is processed. -/
theorem C10_amended_witness :
    cb_process_tick 900 cbInit
        { symbol := some "BTCUSDT", price := some 100, timestamp := some 0 } = cbInit ∧
    (cb_process_tick 900 cbInit
        { symbol := some "BTCUSDT", price := some 0, timestamp := some 905 }).ticks_processed
      = cbInit.ticks_processed + 1 :=
  ⟨(C10_amended 900 cbInit _).1 (fun h => absurd h.2.2 (by decide)),
   (C10_amended 900 cbInit _).2 ⟨by decide, by simp, by decide⟩⟩

theorem find?_first {α : Type} (p : α → Bool) (l : List α) (a : α)
    (h : l.find? p = some a) :
    ∃ l1 l2, l = l1 ++ a :: l2 ∧ ∀ x ∈ l1, p x = false := by
  induction l with
  | nil => cases h
  | cons x xs ih =>
      by_cases hx : p x = true
      · rw [List.find?_cons_of_pos _ hx] at h
        injection h with h
        subst h
        exact ⟨[], xs, rfl, by intro y hy; cases hy⟩
      · rw [List.find?_cons_of_neg _ hx] at h
        obtain ⟨l1, l2, hsplit, hl1⟩ := ih h
        refine ⟨x :: l1, l2, by rw [hsplit, List.cons_append], ?_⟩
        intro y hy
        rcases List.mem_cons.mp hy with rfl | hy2
        · exact Bool.not_eq_true _ ▸ eq_false_of_ne_true hx
        · exact hl1 y hy2

/-- C5: confirmed.  `check_ob_touch` returns None iff no active OB's
penetration zone contains the price (bullish zone: `price ≤ top - (top -
btm) * pct`; bearish: `price ≥ btm + (top - btm) * pct`), and otherwise
returns the first matching active OB, with the bullish list searched
before the bearish list; the returned OB is active, its zone contains the
price, and every active OB scanned before it failed its zone test. -/
theorem C5_touch_check (s : EngineState) (price pct : ℚ) :
    (check_ob_touch s price pct = none ↔
      (∀ ob ∈ get_active_obs_bull s, ¬ (price ≤ ob.top - (ob.top - ob.btm) * pct)) ∧
      (∀ ob ∈ get_active_obs_bear s, ¬ (ob.btm + (ob.top - ob.btm) * pct ≤ price))) ∧
    (∀ r, check_ob_touch s price pct = some r →
      ((r.direction = "bullish" ∧ r.ob ∈ get_active_obs_bull s ∧
          price ≤ r.ob.top - (r.ob.top - r.ob.btm) * pct ∧
          r.entry_level = r.ob.top - (r.ob.top - r.ob.btm) * pct ∧
          r.price_in_zone = price ∧
          ∃ l1 l2, get_active_obs_bull s = l1 ++ r.ob :: l2 ∧
            ∀ ob ∈ l1, ¬ (price ≤ ob.top - (ob.top - ob.btm) * pct)) ∨
       (r.direction = "bearish" ∧
          (∀ ob ∈ get_active_obs_bull s, ¬ (price ≤ ob.top - (ob.top - ob.btm) * pct)) ∧
          r.ob ∈ get_active_obs_bear s ∧
          r.ob.btm + (r.ob.top - r.ob.btm) * pct ≤ price ∧
          r.entry_level = r.ob.btm + (r.ob.top - r.ob.btm) * pct ∧
          r.price_in_zone = price ∧
          ∃ l1 l2, get_active_obs_bear s = l1 ++ r.ob :: l2 ∧
            ∀ ob ∈ l1, ¬ (ob.btm + (ob.top - ob.btm) * pct ≤ price)))) := by
  constructor
  · constructor
    · intro h
      rw [check_ob_touch] at h
      rcases hb : (get_active_obs_bull s).find?
          (fun ob => decide (price ≤ ob.top - (ob.top - ob.btm) * pct)) with _ | ob
      · rcases he : (get_active_obs_bear s).find?
            (fun ob => decide (ob.btm + (ob.top - ob.btm) * pct ≤ price)) with _ | ob
        · refine ⟨?_, ?_⟩
          · intro ob hob
            have := List.find?_eq_none.mp hb ob hob
            simpa using this
          · intro ob hob
            have := List.find?_eq_none.mp he ob hob
            simpa using this
        · rw [hb, he] at h; cases h
      · rw [hb] at h; cases h
    · intro ⟨h1, h2⟩
      have hb : (get_active_obs_bull s).find?
          (fun ob => decide (price ≤ ob.top - (ob.top - ob.btm) * pct)) = none :=
        List.find?_eq_none.mpr (fun ob hob => by simpa using h1 ob hob)
      have he : (get_active_obs_bear s).find?
          (fun ob => decide (ob.btm + (ob.top - ob.btm) * pct ≤ price)) = none :=
        List.find?_eq_none.mpr (fun ob hob => by simpa using h2 ob hob)
      rw [check_ob_touch, hb, he]
  · intro r hr
    rw [check_ob_touch] at hr
    rcases hb : (get_active_obs_bull s).find?
        (fun ob => decide (price ≤ ob.top - (ob.top - ob.btm) * pct)) with _ | ob
    · rcases he : (get_active_obs_bear s).find?
          (fun ob => decide (ob.btm + (ob.top - ob.btm) * pct ≤ price)) with _ | ob
      · rw [hb, he] at hr; cases hr
      · rw [hb, he] at hr
        injection hr with hr
        subst hr
        right
        have hcond : (ob.btm + (ob.top - ob.btm) * pct ≤ price) := by
          have := List.find?_some he
          simpa using this
        obtain ⟨l1, l2, hsplit, hl1⟩ := find?_first _ _ _ he
        refine ⟨rfl, ?_, List.mem_of_find?_eq_some he, hcond, rfl, rfl, l1, l2, hsplit, ?_⟩
        · intro ob2 hob2
          have := List.find?_eq_none.mp hb ob2 hob2
          simpa using this
        · intro ob2 hob2
          have := hl1 ob2 hob2
          simpa using this
    · rw [hb] at hr
      injection hr with hr
      subst hr
      left
      have hcond : (price ≤ ob.top - (ob.top - ob.btm) * pct) := by
        have := List.find?_some hb
        simpa using this
      obtain ⟨l1, l2, hsplit, hl1⟩ := find?_first _ _ _ hb
      refine ⟨rfl, List.mem_of_find?_eq_some hb, hcond, rfl, rfl, l1, l2, hsplit, ?_⟩
      intro ob2 hob2
      have := hl1 ob2 hob2
      simpa using this

/-- Witness for `C5_touch_check`: an engine with no order blocks reports
no touch. -/
theorem C5_touch_check_witness : check_ob_touch engineInit 90 (1/5) = none :=
  (C5_touch_check engineInit 90 (1/5)).1.mpr
    ⟨by intro ob hob; simp [get_active_obs_bull, engineInit] at hob,
     by intro ob hob; simp [get_active_obs_bear, engineInit] at hob⟩

theorem sum_map_update (l : List String) (f : String → ℚ) (sym : String) (d : ℚ)
    (hnd : l.Nodup) (hmem : sym ∈ l) :
    (l.map fun x => if x = sym then f x + d else f x).sum = (l.map f).sum + d := by
  induction l with
  | nil => cases hmem
  | cons a r ih =>
      simp only [List.map_cons, List.sum_cons]
      rcases List.mem_cons.mp hmem with hcase | hmem2
      · subst hcase
        rw [if_pos rfl]
        have hnotin : sym ∉ r := (List.nodup_cons.mp hnd).1
        have hmap : (r.map fun x => if x = sym then f x + d else f x) = r.map f := by
          apply List.map_congr_left
          intro x hx
          rw [if_neg]
          intro hxa
          rw [hxa] at hx
          exact hnotin hx
        rw [hmap]
        ring
      · by_cases ha : a = sym
        · subst ha
          exact absurd hmem2 (List.nodup_cons.mp hnd).1
        · rw [if_neg ha, ih (List.nodup_cons.mp hnd).2 hmem2]
          ring

theorem pm_symbols_step (s : PMState) (op : PMOp) : (pm_step s op).symbols = s.symbols := by
  cases op <;> simp only [pm_step, open_position, partExit_position, close_position] <;>
    repeat' split
  all_goals rfl

theorem can_enter_mem (s : PMState) (sym : String) (r : ℚ)
    (h : can_enter_position s sym r = true) : sym ∈ s.symbols := by
  by_cases hmem : sym ∈ s.symbols
  · exact hmem
  · rw [can_enter_position, if_pos hmem] at h
    cases h

theorem plookup_mem_sym (l : List (String × Position)) (sym : String) (p : Position)
    (h : plookup l sym = some p) : ∃ e ∈ l, e.1 = sym := by
  rw [plookup] at h
  rcases hf : l.find? (fun e => decide (e.1 = sym)) with _ | e
  · rw [hf] at h; cases h
  · have he := List.find?_some hf
    exact ⟨e, List.mem_of_find?_eq_some hf, by simpa using he⟩

theorem posWF_step (s : PMState) (op : PMOp) (h : posWF s) : posWF (pm_step s op) := by
  cases op with
  | openPos sym dir ep sz cu =>
      simp only [pm_step, open_position]
      split
      · next h2 =>
          intro e he
          rcases List.mem_cons.mp he with rfl | he2
          · exact can_enter_mem s sym cu h2
          · exact h e he2
      · exact h
  | partExit sym xp xs pnl fees =>
      simp only [pm_step, partExit_position]
      split
      · exact h
      · intro e he
        simp only [upd_positions] at he
        rcases List.mem_map.mp he with ⟨a, ha, rfl⟩
        by_cases haa : a.1 = sym
        · rw [if_pos haa]
          exact haa ▸ h a ha
        · rw [if_neg haa]
          exact h a ha
  | closePos sym xp pnl fees =>
      simp only [pm_step, close_position]
      split
      · exact h
      · intro e he
        exact h e (List.mem_of_mem_filter he)

theorem pm_total_step (s : PMState) (op : PMOp)
    (hnd : s.symbols.Nodup) (hwf : posWF s) :
    get_total_capital (pm_step s op) = get_total_capital s + pm_credit s op := by
  cases op with
  | openPos sym dir ep sz cu =>
      simp only [pm_step, open_position, pm_credit]
      split <;> simp [get_total_capital]
  | partExit sym xp xs pnl fees =>
      simp only [pm_step, partExit_position, pm_credit]
      rcases hp : plookup s.positions sym with _ | p
      · simp [hp]
      · obtain ⟨e, he, hesym⟩ := plookup_mem_sym _ _ _ hp
        have hmem : sym ∈ s.symbols := hesym ▸ hwf e he
        simp only [hp, Option.isSome_some, if_true]
        show (s.symbols.map fun x => if x = sym then s.capital x + (pnl - fees)
          else s.capital x).sum = (s.symbols.map s.capital).sum + (pnl - fees)
        exact sum_map_update s.symbols s.capital sym (pnl - fees) hnd hmem
  | closePos sym xp pnl fees =>
      simp only [pm_step, close_position, pm_credit]
      rcases hp : plookup s.positions sym with _ | p
      · simp [hp]
      · obtain ⟨e, he, hesym⟩ := plookup_mem_sym _ _ _ hp
        have hmem : sym ∈ s.symbols := hesym ▸ hwf e he
        simp only [hp, Option.isSome_some, if_true]
        show (s.symbols.map fun x => if x = sym then s.capital x + (pnl - fees)
          else s.capital x).sum = (s.symbols.map s.capital).sum + (pnl - fees)
        exact sum_map_update s.symbols s.capital sym (pnl - fees) hnd hmem

theorem pm_fold_total (ops : List PMOp) : ∀ (s : PMState),
    s.symbols.Nodup → posWF s →
    get_total_capital (ops.foldl pm_step s) = get_total_capital s + pm_credits s ops := by
  induction ops with
  | nil =>
      intro s _ _
      simp [pm_credits]
  | cons op rest ih =>
      intro s hnd hwf
      simp only [List.foldl_cons, pm_credits]
      rw [ih (pm_step s op) (by rw [pm_symbols_step]; exact hnd) (posWF_step s op hwf)]
      rw [pm_total_step s op hnd hwf]
      ring

/-- C6: confirmed.  Along any sequence of open / partial-exit / close
calls against a fresh tracker, the total capital across the tracked
symbols equals the initial total plus Σ(pnl - fees) over the closes and
partial exits that found their position: an open never moves capital
(`pm_credit` of an open is 0 by the source), and each close or partial
exit adjusts capital by `pnl - fees` exactly once. -/
theorem C6_capital (syms : List String) (cap0 : ℚ) (ops : List PMOp)
    (hnd : syms.Nodup) :
    get_total_capital (ops.foldl pm_step (pmInit syms cap0))
      = get_total_capital (pmInit syms cap0) + pm_credits (pmInit syms cap0) ops :=
  pm_fold_total ops (pmInit syms cap0) hnd (fun e he => absurd he (List.not_mem_nil e))

/-- Witness for `C6_capital`: one open, one partial exit, one close. -/
theorem C6_capital_witness :
    (["SOLUSD"] : List String).Nodup ∧
    get_total_capital
        (([PMOp.openPos "SOLUSD" "long" 150 10 0,
           PMOp.partExit "SOLUSD" 160 3 30 1,
           PMOp.closePos "SOLUSD" 170 100 2].foldl pm_step (pmInit ["SOLUSD"] 1000)))
      = get_total_capital (pmInit ["SOLUSD"] 1000) +
          pm_credits (pmInit ["SOLUSD"] 1000)
            [PMOp.openPos "SOLUSD" "long" 150 10 0,
             PMOp.partExit "SOLUSD" 160 3 30 1,
             PMOp.closePos "SOLUSD" 170 100 2] :=
  ⟨by decide, C6_capital ["SOLUSD"] 1000 _ (by decide)⟩

theorem plookup_cons_pos (e : String × Position) (es : List (String × Position))
    (sym : String) (he : e.1 = sym) : plookup (e :: es) sym = some e.2 := by
  simp only [plookup]
  rw [List.find?_cons_of_pos _ (by simpa using he)]
  rfl

theorem plookup_cons_neg (e : String × Position) (es : List (String × Position))
    (sym : String) (he : ¬ (e.1 = sym)) : plookup (e :: es) sym = plookup es sym := by
  simp only [plookup]
  rw [List.find?_cons_of_neg _ (by simpa using he)]

theorem plookup_upd (l : List (String × Position)) (sym : String) (p2 : Position)
    (h : (plookup l sym).isSome) :
    plookup (upd_positions l sym p2) sym = some p2 := by
  induction l with
  | nil => cases h
  | cons e es ih =>
      by_cases he : e.1 = sym
      · show plookup ((if e.1 = sym then (sym, p2) else e) :: upd_positions es sym p2)
          sym = some p2
        rw [if_pos he, plookup_cons_pos _ _ _ rfl]
      · show plookup ((if e.1 = sym then (sym, p2) else e) :: upd_positions es sym p2)
          sym = some p2
        rw [if_neg he, plookup_cons_neg _ _ _ he]
        apply ih
        rw [plookup_cons_neg _ _ _ he] at h
        exact h

/-- C7: amended.  `open_position` stores the position with
`remaining_size = size`; `partial_exit_position` recomputes
`remaining_size = size - exit_size` from the ORIGINAL size — it does not
shrink the current remaining size, so repeated partial exits do not
accumulate — and the source never validates `exit_size`, so the claimed
invariant `0 < remaining_size ≤ size` holds for the stored value iff
`0 ≤ exit_size < size`. -/
theorem C7_amended (s : PMState) (sym dir : String) (ep : ℚ) (sz : Int) (cu : ℚ)
    (xp : ℚ) (xs : Int) (pnl fees : ℚ) (p : Position) :
    (can_enter_position s sym cu = true →
      plookup (open_position s sym dir ep sz cu).positions sym =
        some { direction := dir, entry_price := ep, size := sz, capital_used := cu,
               remaining_size := some sz }) ∧
    (plookup s.positions sym = some p →
      plookup (partExit_position s sym xp xs pnl fees).positions sym =
        some { p with partExited := true, partExit_price := some xp,
                      remaining_size := some (p.size - xs) }) ∧
    (0 < p.size - xs ∧ p.size - xs ≤ p.size ↔ 0 ≤ xs ∧ xs < p.size) := by
  refine ⟨?_, ?_, by omega⟩
  · intro h
    rw [open_position, if_pos h]
    show plookup ((sym, { direction := dir, entry_price := ep, size := sz, capital_used := cu, remaining_size := some sz }) :: s.positions) sym = _
    rw [plookup_cons_pos _ _ _ rfl]
  · intro h
    rw [partExit_position, h]
    exact plookup_upd s.positions sym _ (by rw [h]; rfl)

/-- Witness for `C7_amended` on a fresh one-symbol tracker. -/
theorem C7_amended_witness :
    can_enter_position (pmInit ["SOLUSD"] 1000) "SOLUSD" 0 = true ∧
    plookup (open_position (pmInit ["SOLUSD"] 1000) "SOLUSD" "long" 150 10 0).positions
        "SOLUSD" = some { direction := "long", entry_price := 150, size := 10,
                          capital_used := 0, remaining_size := some 10 } ∧
    (0 < (10:Int) - 3 ∧ (10:Int) - 3 ≤ 10 ↔ 0 ≤ (3:Int) ∧ (3:Int) < 10) := by
  have h1 : can_enter_position (pmInit ["SOLUSD"] 1000) "SOLUSD" 0 = true := by
    rw [can_enter_position]
    rw [if_neg (by simp [pmInit])]
    rw [if_neg (by decide : ¬ ((plookup (pmInit ["SOLUSD"] 1000).positions
      "SOLUSD").isSome = true))]
    rw [if_neg (by norm_num)]
  exact ⟨h1,
    (C7_amended (pmInit ["SOLUSD"] 1000) "SOLUSD" "long" 150 10 0 160 3 0 0
      { direction := "long", entry_price := 150, size := 10, capital_used := 0,
        remaining_size := some 10 }).1 h1,
    (C7_amended (pmInit ["SOLUSD"] 1000) "SOLUSD" "long" 150 10 0 160 3 0 0
      { direction := "long", entry_price := 150, size := 10, capital_used := 0,
        remaining_size := some 10 }).2.2⟩

/-- C7: counterexample.  Two successive partial exits of 3 contracts from
a 10-contract position leave `remaining_size = 7`, not the 4 the claimed
cumulative-shrinking invariant demands — the source recomputes
`size - exit_size` from the original size each time.  And a single partial
exit of 15 contracts drives `remaining_size` to -5; nothing validates
`exit_size`, so `0 < remaining_size` is violated. -/
theorem C7_counterexample :
    (plookup c7sA.positions "SOLUSD").map (fun p => p.remaining_size)
      = some (some 7) ∧
    (7:Int) ≠ 10 - 3 - 3 ∧
    (plookup c7sB.positions "SOLUSD").map (fun p => p.remaining_size)
      = some (some (-5)) ∧
    ¬ (0 < (-5:Int)) := by
  have h1 : can_enter_position (pmInit ["SOLUSD"] 1000) "SOLUSD" 0 = true := by
    rw [can_enter_position]
    rw [if_neg (by simp [pmInit])]
    rw [if_neg (by decide : ¬ ((plookup (pmInit ["SOLUSD"] 1000).positions
      "SOLUSD").isSome = true))]
    rw [if_neg (by norm_num)]
  have hopen : pm_step (pmInit ["SOLUSD"] 1000) (PMOp.openPos "SOLUSD" "long" 150 10 0) =
      { pmInit ["SOLUSD"] 1000 with positions := [("SOLUSD", { direction := "long", entry_price := 150, size := 10, capital_used := 0, remaining_size := some 10 })] } := by
    rw [pm_step, open_position, if_pos h1]
    rfl
  refine ⟨?_, by decide, ?_, by decide⟩
  · rw [c7sA, hopen]
    rfl
  · rw [c7sB, hopen]
    rfl

theorem find?_filter_ne (k oid : Int) (h : oid ≠ k) : ∀ (l : List (Int × Order)),
    (l.filter fun e => !(decide (e.1 = k))).find? (fun e => decide (e.1 = oid)) =
      l.find? fun e => decide (e.1 = oid) := by
  intro l
  induction l with
  | nil => rfl
  | cons x xs ih =>
      by_cases hk : x.1 = k
      · rw [List.filter_cons_of_neg (by simp [hk]),
          List.find?_cons_of_neg _ (by simp [hk, h.symm]), ih]
      · rw [List.filter_cons_of_pos (by simp [hk])]
        by_cases ho : x.1 = oid
        · rw [List.find?_cons_of_pos _ (by simp [ho]),
            List.find?_cons_of_pos _ (by simp [ho])]
        · rw [List.find?_cons_of_neg _ (by simp [ho]),
            List.find?_cons_of_neg _ (by simp [ho]), ih]

theorem find?_key_nodup : ∀ (l : List (Int × Order)),
    (l.map fun e => e.1).Nodup → ∀ e ∈ l,
    l.find? (fun x => decide (x.1 = e.1)) = some e := by
  intro l
  induction l with
  | nil => intro _ e he; cases he
  | cons x xs ih =>
      intro hnd e he
      simp only [List.map_cons, List.nodup_cons] at hnd
      obtain ⟨hx, hnd2⟩ := hnd
      rcases List.mem_cons.mp he with he1 | he2
      · subst he1
        rw [List.find?_cons_of_pos _ (by simp)]
      · have hne : x.1 ≠ e.1 := by
          intro hh
          exact hx (hh ▸ List.mem_map_of_mem (fun e => e.1) he2)
        rw [List.find?_cons_of_neg _ (by simp [hne]), ih hnd2 e he2]

theorem cancel_fold_spec (reason : String) (ps : List Order) :
    ∀ (t : OMState) (n : Nat),
    (ps.map fun o => o.order_id).Nodup →
    (∀ o ∈ ps, om_get_order t o.order_id = some o) →
    (ps.foldl (cancel_step reason) (t, n)).2 = n + ps.length ∧
    (ps.foldl (cancel_step reason) (t, n)).1.cancelled_orders
      = t.cancelled_orders + ps.length ∧
    (ps.foldl (cancel_step reason) (t, n)).1.completed_orders
      = t.completed_orders ++ ps.map
          (fun o => { o with status := OrderStatus.cancelled,
                             cancel_reason := some reason }) ∧
    (∀ e ∈ (ps.foldl (cancel_step reason) (t, n)).1.orders,
      e ∈ t.orders ∧ e.1 ∉ ps.map (fun o => o.order_id)) ∧
    (∀ e ∈ t.orders, e.1 ∉ ps.map (fun o => o.order_id) →
      e ∈ (ps.foldl (cancel_step reason) (t, n)).1.orders) := by
  induction ps with
  | nil =>
      intro t n _ _
      refine ⟨rfl, rfl, by simp, ?_, ?_⟩
      · intro e he; exact ⟨he, by simp⟩
      · intro e he _; exact he
  | cons o rest ih =>
      intro t n hnd hpres
      have ho := hpres o (List.mem_cons_self o rest)
      simp only [List.map_cons, List.nodup_cons] at hnd
      obtain ⟨hno, hndr⟩ := hnd
      have hstep : cancel_step reason (t, n) o =
          ({ t with
              orders := t.orders.filter fun e => !(decide (e.1 = o.order_id))
              completed_orders := t.completed_orders ++
                [{ o with status := .cancelled, cancel_reason := some reason }]
              cancelled_orders := t.cancelled_orders + 1 }, n + 1) := by
        simp only [cancel_step, cancel_order, ho, if_true]
      have hpres2 : ∀ o2 ∈ rest,
          om_get_order { t with
              orders := t.orders.filter fun e => !(decide (e.1 = o.order_id))
              completed_orders := t.completed_orders ++
                [{ o with status := .cancelled, cancel_reason := some reason }]
              cancelled_orders := t.cancelled_orders + 1 } o2.order_id = some o2 := by
        intro o2 ho2
        have hne : o2.order_id ≠ o.order_id := by
          intro hh
          exact hno (hh ▸ List.mem_map_of_mem (fun o => o.order_id) ho2)
        have := hpres o2 (List.mem_cons_of_mem o ho2)
        simp only [om_get_order] at this ⊢
        rw [find?_filter_ne _ _ hne]
        exact this
      obtain ⟨ih1, ih2, ih3, ih4, ih5⟩ := ih _ (n + 1) hndr hpres2
      simp only [List.foldl_cons, hstep]
      refine ⟨?_, ?_, ?_, ?_, ?_⟩
      · rw [ih1, List.length_cons]; omega
      · rw [ih2]; simp only [List.length_cons]; omega
      · rw [ih3]; simp [List.append_assoc]
      · intro e he
        obtain ⟨hmem, hnotin⟩ := ih4 e he
        have := List.mem_filter.mp hmem
        refine ⟨this.1, ?_⟩
        simp only [List.map_cons, List.mem_cons]
        rintro (hh | hh)
        · have h2 := this.2
          simp only [Bool.not_eq_true', decide_eq_false_iff_not] at h2
          exact h2 hh
        · exact hnotin hh
      · intro e he hnotin
        simp only [List.map_cons, List.mem_cons] at hnotin
        push_neg at hnotin
        refine ih5 e ?_ hnotin.2
        exact List.mem_filter.mpr ⟨he, by simp [hnotin.1]⟩

/-- C8: amended.  Under the dict invariants (keys are distinct and each
stored order carries its own key as `order_id`), `cancel_orders_by_ob`:
returns exactly the number of the OB's PENDING orders (partially filled
ones are excluded by the snapshot filter); bumps the `cancelled_orders`
statistic by that number; appends exactly those orders, marked CANCELLED
with the given reason, to the completed history; removes each of them
from the active dict; and leaves every other active order (any other
status, or any other OB) in place untouched. -/
theorem C8_amended (s : OMState) (ob reason : String)
    (hkeys : (s.orders.map fun e => e.1).Nodup)
    (hids : ∀ e ∈ s.orders, e.2.order_id = e.1) :
    (cancel_orders_by_ob s ob reason).2 =
      ((get_orders_by_ob s ob).filter fun o =>
        decide (o.status = OrderStatus.pending)).length ∧
    (cancel_orders_by_ob s ob reason).1.cancelled_orders =
      s.cancelled_orders + ((get_orders_by_ob s ob).filter fun o =>
        decide (o.status = OrderStatus.pending)).length ∧
    (cancel_orders_by_ob s ob reason).1.completed_orders =
      s.completed_orders ++
        (((get_orders_by_ob s ob).filter fun o =>
            decide (o.status = OrderStatus.pending)).map
          fun o => { o with status := OrderStatus.cancelled,
                            cancel_reason := some reason }) ∧
    (∀ o ∈ (get_orders_by_ob s ob).filter fun o =>
        decide (o.status = OrderStatus.pending),
      om_get_order (cancel_orders_by_ob s ob reason).1 o.order_id = none) ∧
    (∀ e ∈ s.orders, ¬ (e.2.ob_id = ob ∧ e.2.status = OrderStatus.pending) →
      e ∈ (cancel_orders_by_ob s ob reason).1.orders) := by
  have hA : (((get_orders_by_ob s ob).filter fun o =>
      decide (o.status = OrderStatus.pending)).map fun o => o.order_id).Nodup := by
    have hsub : ((get_orders_by_ob s ob).filter fun o =>
        decide (o.status = OrderStatus.pending)).Sublist
          (s.orders.map fun e => e.2) :=
      (List.filter_sublist _).trans (List.filter_sublist _)
    have hsub2 := hsub.map fun o => o.order_id
    have heq : ((s.orders.map fun e => e.2).map fun o => o.order_id)
        = s.orders.map fun e => e.1 := by
      rw [List.map_map]
      exact List.map_congr_left fun e he => hids e he
    rw [heq] at hsub2
    exact hsub2.nodup hkeys
  have hB : ∀ o ∈ (get_orders_by_ob s ob).filter fun o =>
      decide (o.status = OrderStatus.pending),
      om_get_order s o.order_id = some o := by
    intro o ho
    have ho2 : o ∈ s.orders.map fun e => e.2 :=
      List.mem_of_mem_filter (List.mem_of_mem_filter ho)
    obtain ⟨e, he, hoe⟩ := List.mem_map.mp ho2
    subst hoe
    rw [hids e he]
    simp only [om_get_order, find?_key_nodup s.orders hkeys e he]
    rfl
  obtain ⟨h1, h2, h3, h4, h5⟩ := cancel_fold_spec reason _ s 0 hA hB
  refine ⟨?_, ?_, ?_, ?_, ?_⟩
  · simp only [cancel_orders_by_ob]
    rw [h1, Nat.zero_add]
  · simp only [cancel_orders_by_ob]
    rw [h2]
  · simp only [cancel_orders_by_ob]
    rw [h3]
  · intro o ho
    simp only [cancel_orders_by_ob, om_get_order]
    rw [List.find?_eq_none.mpr]
    · rfl
    · intro e he
      have := (h4 e he).2
      simp only [decide_eq_true_eq]
      intro hh
      exact this (hh ▸ List.mem_map_of_mem (fun o => o.order_id) ho)
  · intro e he hno
    simp only [cancel_orders_by_ob]
    refine h5 e he ?_
    intro hin
    obtain ⟨o, ho, hoid⟩ := List.mem_map.mp hin
    have hq := (List.mem_filter.mp ho).2
    have hp := List.mem_filter.mp (List.mem_filter.mp ho).1
    obtain ⟨e2, he2, hoe⟩ := List.mem_map.mp hp.1
    have hkey : e2.1 = e.1 := by
      rw [← hids e2 he2, hoe, hoid]
    have hee : e2 = e := List.inj_on_of_nodup_map hkeys he2 he hkey
    subst hee
    rw [hoe] at hno
    exact hno ⟨by simpa using hp.2, by simpa using hq⟩

/-- Witness for `C8_amended`: on the two-order state the hypotheses hold
and the returned count equals the number of pending orders on OB "X"
(one). -/
theorem C8_amended_witness :
    (omC8.orders.map fun e => e.1).Nodup ∧
    (∀ e ∈ omC8.orders, e.2.order_id = e.1) ∧
    (cancel_orders_by_ob omC8 "X" "ob_invalidated").2 =
      ((get_orders_by_ob omC8 "X").filter fun o =>
        decide (o.status = OrderStatus.pending)).length :=
  ⟨by decide, by decide,
    (C8_amended omC8 "X" "ob_invalidated" (by decide) (by decide)).1⟩

/-- C8: counterexample.  With a pending order and a partially filled
order both linked to OB "X", `cancel_orders_by_ob` cancels only the
pending one: it returns 1 (the claim demands that PARTIALLY_FILLED
orders are cancelled too, i.e. 2 here), bumps the `cancelled_orders`
stat by 1, and leaves the partially filled order in the active dict
still in status PARTIALLY_FILLED — the snapshot filter keeps only
`status == OrderStatus.PENDING`. -/
theorem C8_counterexample :
    (cancel_orders_by_ob omC8 "X" "ob_invalidated").2 = 1 ∧
    (1:Nat) ≠ 2 ∧
    ((om_get_order (cancel_orders_by_ob omC8 "X" "ob_invalidated").1 2).map
      fun o => o.status) = some OrderStatus.partFilled ∧
    OrderStatus.partFilled ≠ OrderStatus.cancelled ∧
    (cancel_orders_by_ob omC8 "X" "ob_invalidated").1.cancelled_orders = 1 := by
  refine ⟨rfl, by decide, rfl, by decide, rfl⟩

theorem find?_filter_ne_str (k q : String) (h : q ≠ k) : ∀ (l : FS),
    (l.filter fun e => !(decide (e.1 = k))).find? (fun e => decide (e.1 = q)) =
      l.find? fun e => decide (e.1 = q) := by
  intro l
  induction l with
  | nil => rfl
  | cons x xs ih =>
      by_cases hk : x.1 = k
      · rw [List.filter_cons_of_neg (by simp [hk]),
          List.find?_cons_of_neg _ (by simp [hk, h.symm]), ih]
      · rw [List.filter_cons_of_pos (by simp [hk])]
        by_cases ho : x.1 = q
        · rw [List.find?_cons_of_pos _ (by simp [ho]),
            List.find?_cons_of_pos _ (by simp [ho])]
        · rw [List.find?_cons_of_neg _ (by simp [ho]),
            List.find?_cons_of_neg _ (by simp [ho]), ih]

theorem fs_read_write_eq (fs : FS) (p : String) (c : FContent) :
    fs_read (fs_write fs p c) p = some c := by
  simp [fs_read, fs_write]

theorem fs_read_write_ne (fs : FS) (p q : String) (c : FContent) (h : q ≠ p) :
    fs_read (fs_write fs p c) q = fs_read fs q := by
  simp only [fs_read, fs_write]
  rw [List.find?_cons_of_neg _ (by simp [Ne.symm h]),
    find?_filter_ne_str p q h]

/-- C9: amended.  When the state file at `path` holds unparseable JSON,
`_safe_load` returns None and quarantines a COPY at the timestamped
`.corrupt.<ts>` backup path: the backup now holds the corrupt bytes, but
— contrary to the claim's "renamed" — the original path still holds them
too. -/
theorem C9_amended (fs : FS) (path backup raw : String)
    (hb : backup ≠ path) (hc : fs_read fs path = some (FContent.jsonBad raw)) :
    (safe_load fs path backup).1 = none ∧
    fs_read (safe_load fs path backup).2 backup = some (FContent.jsonBad raw) ∧
    fs_read (safe_load fs path backup).2 path = some (FContent.jsonBad raw) := by
  refine ⟨by simp [safe_load, hc], ?_, ?_⟩
  · simp only [safe_load, hc]
    exact fs_read_write_eq _ _ _
  · simp only [safe_load, hc]
    rw [fs_read_write_ne _ _ _ _ (Ne.symm hb)]
    exact hc

/-- Witness for `C9_amended`: the one-corrupt-file directory. -/
theorem C9_amended_witness :
    ("data/ob_state.corrupt.20251012_000000" : String) ≠ "data/ob_state.json" ∧
    fs_read c9fs "data/ob_state.json" = some (FContent.jsonBad "not json") ∧
    (safe_load c9fs "data/ob_state.json" "data/ob_state.corrupt.20251012_000000").1
      = none :=
  ⟨by decide, rfl,
    (C9_amended c9fs "data/ob_state.json" "data/ob_state.corrupt.20251012_000000"
      "not json" (by decide) rfl).1⟩

/-- C9: counterexample.  Loading the corrupt `ob_state.json` does return
None and does create the timestamped `.corrupt.<ts>` backup, but the
source uses `shutil.copy`, not a rename: afterwards the original target
path STILL holds the corrupt payload, while the spec-modelled rename
semantics (`spec_safe_load`) would leave it empty. -/
theorem C9_counterexample :
    (safe_load c9fs "data/ob_state.json" "data/ob_state.corrupt.20251012_000000").1
      = none ∧
    fs_read (safe_load c9fs "data/ob_state.json"
        "data/ob_state.corrupt.20251012_000000").2 "data/ob_state.json"
      = some (FContent.jsonBad "not json") ∧
    fs_read (safe_load c9fs "data/ob_state.json"
        "data/ob_state.corrupt.20251012_000000").2
        "data/ob_state.corrupt.20251012_000000"
      = some (FContent.jsonBad "not json") ∧
    fs_read (spec_safe_load c9fs "data/ob_state.json"
        "data/ob_state.corrupt.20251012_000000").2 "data/ob_state.json"
      = none ∧
    some (FContent.jsonBad "not json") ≠ (none : Option FContent) := by
  refine ⟨rfl, by decide, by decide, by decide, by decide⟩

end SMCT
